import Mathlib

/-!
Verification of the dlnap DLNA/UPnP control tool (src/dlnap/dlnap.py).

Strings are modelled as `List Char`; every Python string primitive that the
source uses (`strip`, `split`, `replace`, `startswith`, `endswith`, substring
membership) is given an explicit executable model, and the source functions
`_get_tag_value`, `_xml2dict`, `_xpath`, `_get_port`, `_get_location_url`,
`_unescape_xml`, `_send_tcp`, `DlnapDevice.__init__`,
`DlnapDevice._payload_from_template`, `DlnapDevice._create_packet` and
`Cli.discover` are translated statement by statement.  Fallible Python
operations (dict indexing, list indexing, sequence unpacking, network calls)
are modelled with `Except PyErr`; network effects are oracle parameters.
-/

set_option autoImplicit false
set_option maxRecDepth 40000

namespace Dlnap

/-- Python exception kinds that the modelled code can raise. -/
inductive PyErr where
  | indexError
  | keyError
  | typeError
  | valueError
  | netError
  | decodeError
  | exception
  deriving DecidableEq, Repr

/-- Characters treated as whitespace by Python `str.strip()` with no argument. -/
def pySpace (c : Char) : Bool :=
  c = ' ' ∨ c = '\t' ∨ c = '\n' ∨ c = '\r' ∨ c = '\x0b' ∨ c = '\x0c'

/-- Python `s.strip()`: drop whitespace from both ends. -/
def pyStrip (s : List Char) : List Char :=
  ((s.dropWhile pySpace).reverse.dropWhile pySpace).reverse

/-- Boolean prefix test (Python `startswith`). -/
def isPrefixB : List Char → List Char → Bool
  | [], _ => true
  | _ :: _, [] => false
  | a :: as, b :: bs => a = b && isPrefixB as bs

/-- Boolean suffix test (Python `endswith`). -/
def endsWithB (pat s : List Char) : Bool :=
  isPrefixB pat.reverse s.reverse

/-- Python substring membership `pat in s`. -/
def containsSub (pat : List Char) : List Char → Bool
  | [] => isPrefixB pat []
  | c :: rest => isPrefixB pat (c :: rest) || containsSub pat rest

/-- Python `s.split(sep)` for a one-character separator: keeps empty pieces,
always returns a non-empty list. -/
def pySplit (sep : Char) : List Char → List (List Char)
  | [] => [[]]
  | c :: rest =>
    if c = sep then [] :: pySplit sep rest
    else
      match pySplit sep rest with
      | h :: t => (c :: h) :: t
      | [] => [[c]]

/-- Scanning loop of Python `s.replace(pat, rep)`.  The fuel only bounds the
number of scanning steps; since every step consumes at least one character of
the remaining input, fuel equal to the input length is always enough. -/
def replaceAllGo (pat rep : List Char) : Nat → List Char → List Char
  | _, [] => []
  | 0, l => l
  | f + 1, c :: rest =>
    if isPrefixB pat (c :: rest) ∧ pat ≠ [] then
      rep ++ replaceAllGo pat rep f (rest.drop (pat.length - 1))
    else
      c :: replaceAllGo pat rep f rest

/-- Python `s.replace(pat, rep)`: replace all non-overlapping occurrences,
scanning left to right (the source only calls it with a non-empty `pat`). -/
def replaceAll (pat rep l : List Char) : List Char :=
  replaceAllGo pat rep l.length l

/-- Python `l[:-n]` for `n ≥ 0`: drop the last `n` elements, empty if too short. -/
def pyDropLastN (n : Nat) (l : List Char) : List Char :=
  l.take (l.length - n)

/-- Loop `while i < len(x) and x[i] != '<': i += 1` of `_get_tag_value`:
number of characters skipped before the first `<`. -/
def countUntilLt : List Char → Nat
  | [] => 0
  | c :: rest => if c = '<' then 0 else countUntilLt rest + 1

/-- Tag-reading loop of `_get_tag_value`: scan to the first `>`, collecting
characters until the first space (`in_attr` switch drops attributes).  Returns
the collected tag and the remaining characters starting at the `>` (or `[]`
when the input ran out). -/
def scanTag : List Char → Bool → List Char × List Char
  | [], _ => ([], [])
  | c :: rest, inAttr =>
    if c = '>' then ([], c :: rest)
    else
      let inAttr' := if c = ' ' then true else inAttr
      let (t, r) := scanTag rest inAttr'
      (if inAttr' then t else c :: t, r)

/-- Value-reading loop of `_get_tag_value`: accumulate characters; on a `>`
whose accumulated value ends with the closing token `'</' + tag + '>'`, cut
`len(tag) + 2` characters from the end and stop.  Returns the value as left by
the loop and the characters after the breaking `>` (`x[i+1:]`, which is empty
when the loop runs off the end of the string). -/
def scanValue (closeTok : List Char) : List Char → List Char → List Char × List Char
  | [], acc => (acc, [])
  | c :: rest, acc =>
    let acc' := acc ++ [c]
    if c = '>' ∧ endsWithB closeTok acc' then
      (pyDropLastN (closeTok.length - 1) acc', rest)
    else
      scanValue closeTok rest acc'

/-- Model of `_get_tag_value(x)` (always called with `i = 0` by the source):
returns `(tag, value, rest)`.  The self-closing normalisation replaces every
occurrence of `'<' + tag + ' />'` in the stripped string when the string
starts with that token, while the scan position `i` is left untouched — the
position-based semantics is preserved exactly. -/
def getTagValue (x0 : List Char) : List Char × List Char × List Char :=
  let x := pyStrip x0
  let i0 := if isPrefixB ['<', '?'] x then 2 + countUntilLt (x.drop 2) else 0
  let s1 := x.drop i0
  if isPrefixB ['<', '/'] s1 then
    let (tag, rem) := scanTag (s1.drop 2) false
    (pyStrip tag, [], rem.drop 1)
  else if ¬ isPrefixB ['<'] s1 then
    ([], s1, [])
  else
    let (tag, rem) := scanTag (s1.drop 1) false
    let iAfter := i0 + 2 + (s1.length - 1 - rem.length)
    let emptyElmt := '<' :: tag ++ [' ', '/', '>']
    let closedElmt := '<' :: tag ++ '>' :: ['N', 'o', 'n', 'e'] ++ '<' :: '/' :: tag ++ ['>']
    let x' := if isPrefixB emptyElmt x then replaceAll emptyElmt closedElmt x else x
    let closeTok := '<' :: '/' :: tag ++ ['>']
    let (v, _) := scanValue closeTok (x'.drop iAfter) []
    let rest := (scanValue closeTok (x'.drop iAfter) []).2
    (pyStrip tag, pyDropLastN 1 v, rest)

/-- Parsed XML tree: a value is leaf text or a node; a node maps each tag name
to the ordered list of children extracted for that tag (Python dict with list
values, insertion-ordered). -/
inductive XVal where
  | leaf (s : List Char)
  | node (d : List (List Char × List XVal))
  deriving Repr

/-- Node payload: insertion-ordered association list with unique keys. -/
abbrev XDict := List (List Char × List XVal)

/-- First-match association lookup (Python `d[tag]` / `tag in d` on a dict). -/
def pyFind (d : XDict) (k : List Char) : Option (List XVal) :=
  match d with
  | [] => none
  | (k', vs) :: rest => if k' = k then some vs else pyFind rest k

/-- Python `if tag not in d: d[tag] = []`: ensure the key exists (inserted at
the end, preserving insertion order). -/
def dictEnsure (d : XDict) (k : List Char) : XDict :=
  match pyFind d k with
  | some _ => d
  | none => d ++ [(k, [])]

/-- Python `d[tag].append(v)`. -/
def dictAppend (d : XDict) (k : List Char) (v : XVal) : XDict :=
  match d with
  | [] => []
  | (k', vs) :: rest =>
    if k' = k then (k', vs ++ [v]) :: rest else (k', vs) :: dictAppend rest k v

/-- Model of the regex preprocessing `''.join(re.findall(".*?(<.*)", s, re.M))`
used when `ignoreUntilXML` is set: for each line, keep the suffix starting at
the first `<` (nothing when the line has no `<`), and join the pieces. -/
def ignoreUntilXmlStr (s : List Char) : List Char :=
  ((pySplit '\n' s).map (fun l => l.dropWhile (fun c => c ≠ '<'))).flatten

/-- Fuelled model of the `while s:` loop of `_xml2dict`, carrying the dict
built so far.  One unit of fuel is spent per iteration and per recursion into
a nested value, so any fuel at least the nesting depth plus the total number
of extracted tags is enough. -/
def xml2dictGo : Nat → List Char → XDict → XDict
  | _, [], d => d
  | 0, _, d => d
  | fuel + 1, s, d =>
    let (tag, value0, s') := getTagValue s
    let value := pyStrip value0
    let isXml := (getTagValue value).1
    let d1 := dictEnsure d tag
    if isXml = [] then
      if value = [] then xml2dictGo fuel s' d1
      else xml2dictGo fuel s' (dictAppend d1 tag (XVal.leaf (pyStrip value)))
    else
      xml2dictGo fuel s' (dictAppend d1 tag (XVal.node (xml2dictGo fuel value [])))

/-- Model of `_xml2dict(s, ignoreUntilXML)`. -/
def xml2dict (fuel : Nat) (ignoreUntilXML : Bool) (s : List Char) : XDict :=
  xml2dictGo fuel (if ignoreUntilXML then ignoreUntilXmlStr s else s) []

/-- Python `s[a] == [aval]` where `s[a]` is a child list and `[aval]` a
one-element list holding a string: true exactly when the child list is one
leaf equal to `aval`. -/
def eqSingletonLeaf (vs : List XVal) (aval : List Char) : Bool :=
  match vs with
  | [XVal.leaf s] => s = aval
  | _ => false

/-- Attribute-filter loop `for s in d[tag]: if s[a] == [aval]: d = s; break` of
`_xpath`: first entry whose child list at `a` equals `[aval]`; indexing a leaf
raises `TypeError`, a node without the key raises `KeyError`; no match leaves
the current node unchanged (`ok none`). -/
def scanEntries (a aval : List Char) : List XVal → Except PyErr (Option XVal)
  | [] => .ok none
  | s :: rest =>
    match s with
    | .leaf _ => .error .typeError
    | .node sd =>
      match pyFind sd a with
      | none => .error .keyError
      | some vs =>
        if eqSingletonLeaf vs aval then .ok (some (.node sd)) else scanEntries a aval rest

/-- Segment loop of `_xpath`: the running value `d` may be a node or (after
descending into a leaf) a string, in which case Python's `tag not in d` is a
substring test and `d[tag]` raises `TypeError`.  `attr.split('=')` must give
exactly two pieces, else unpacking raises `ValueError`; an unfiltered segment
takes `d[tag][0]`, raising `IndexError` on an empty child list. -/
def xpathSegs : XVal → List (List Char) → Except PyErr (Option XVal)
  | d, [] => .ok (some d)
  | d, p :: rest =>
    let parts := pySplit '@' p
    let tag := parts.headD []
    let attr := (parts.drop 1).headD []
    match d with
    | .node dd =>
      match pyFind dd tag with
      | none => .ok none
      | some entries =>
        if attr = [] then
          match entries with
          | [] => .error .indexError
          | v :: _ => xpathSegs v rest
        else
          match pySplit '=' attr with
          | [a, aval] =>
            match scanEntries a aval entries with
            | .error e => .error e
            | .ok (some s) => xpathSegs s rest
            | .ok none => xpathSegs (.node dd) rest
          | _ => .error .valueError
    | .leaf str =>
      if containsSub tag str = false then .ok none
      else if attr = [] then .error .typeError
      else
        match pySplit '=' attr with
        | [_, _] => .error .typeError
        | _ => .error .valueError

/-- Model of `_xpath(d, path)`. -/
def xpath (d : XDict) (path : List Char) : Except PyErr (Option XVal) :=
  xpathSegs (.node d) (pySplit '/' path)

/-- ASCII lower-casing (Python `str.lower()` on the ASCII data in play). -/
def asciiLower (c : Char) : Char :=
  if 'A' ≤ c ∧ c ≤ 'Z' then Char.ofNat (c.toNat + 32) else c

/-- Lower-case every character. -/
def lowerStr (s : List Char) : List Char := s.map asciiLower

/-- Nat value of a digit string (Python `int` on the regex capture). -/
def digitsToNat (ds : List Char) : Nat :=
  ds.foldl (fun n c => n * 10 + (c.toNat - 48)) 0

/-- Scan, within the current line, for the first `:` followed by a digit and
return the maximal digit run after it — the `.*?:(\d+)` part of `_get_port`'s
regex (`.` cannot cross a newline). -/
def findPortDigits : List Char → Option (List Char)
  | [] => none
  | c :: rest =>
    if c = '\n' then none
    else if c = ':' then
      match rest with
      | d :: _ =>
        if d.isDigit then some (rest.takeWhile Char.isDigit) else findPortDigits rest
      | [] => none
    else findPortDigits rest

/-- Position-by-position scan of the regex `http://.*?:(\d+).*`: the first
position carrying `http://` with a `:<digits>` later on the same line wins. -/
def getPortCore : List Char → Option Nat
  | [] => none
  | c :: rest =>
    if isPrefixB ('h' :: 't' :: 't' :: 'p' :: ':' :: '/' :: '/' :: []) (c :: rest) then
      match findPortDigits ((c :: rest).drop 7) with
      | some ds => some (digitsToNat ds)
      | none => getPortCore rest
    else getPortCore rest

/-- Model of `_get_port(location)`: port from the location URL, default 80. -/
def getPort (location : List Char) : Nat :=
  match getPortCore location with
  | some n => n
  | none => 80

/-- Index of the last `'\r'` in a list, if any. -/
def lastCrIndex : List Char → Option Nat
  | [] => none
  | c :: rest =>
    match lastCrIndex rest with
    | some i => some (i + 1)
    | none => if c = '\r' then some 0 else none

/-- Backtracking over the greedy `\s*` of `_get_location_url`'s regex
`\n(?i)location:\s*(.*)\r\s*`: with `w` whitespace characters consumed, the
greedy `(.*)` needs a `\r` later in the same line and captures up to the last
one; on failure one whitespace character is given back. -/
def extractLocTry (s : List Char) : Nat → Option (List Char)
  | 0 =>
    let line := s.takeWhile (fun c => c ≠ '\n')
    (lastCrIndex line).map (fun k => line.take k)
  | w + 1 =>
    let t := s.drop (w + 1)
    let line := t.takeWhile (fun c => c ≠ '\n')
    match lastCrIndex line with
    | some k => some (line.take k)
    | none => extractLocTry s w

/-- Match `\s*(.*)\r\s*` at the given position, `\s*` greedy first. -/
def extractLoc (s : List Char) : Option (List Char) :=
  extractLocTry s (s.takeWhile pySpace).length

/-- Scan for a `'\n'` followed by a case-insensitive `location:` whose line
admits the rest of the regex; continue scanning when the attempt fails. -/
def findLoc : List Char → List Char
  | [] => []
  | c :: rest =>
    if c = '\n' ∧ lowerStr (rest.take 9) = ('l' :: 'o' :: 'c' :: 'a' :: 't' :: 'i' :: 'o' :: 'n' :: ':' :: []) then
      match extractLoc (rest.drop 9) with
      | some v => v
      | none => findLoc rest
    else findLoc rest

/-- Model of `_get_location_url(raw)`: first regex capture, or `''`. -/
def getLocationUrl (raw : List Char) : List Char := findLoc raw

/-- Model of `_unescape_xml`: the three chained `str.replace` calls. -/
def unescapeXml (s : List Char) : List Char :=
  replaceAll ('&' :: 'q' :: 'u' :: 'o' :: 't' :: ';' :: []) ['"']
    (replaceAll ('&' :: 'g' :: 't' :: ';' :: []) ['>']
      (replaceAll ('&' :: 'l' :: 't' :: ';' :: []) ['<'] s))

/-- Value returned by `_send_tcp`: `''` (after a caught exception) or the
parsed reply dictionary. -/
inductive TcpResp where
  | empty
  | parsed (d : XDict)

/-- Fixed fault path probed by `_send_tcp`. -/
def faultPath : List Char := "s:Envelope/s:Body/s:Fault/detail/UPnPError/errorDescription".toList

/-- Return value of `_send_tcp` together with the fault description it logged
through `logging.error`, if any. -/
structure SendTcpOut where
  resp : TcpResp
  loggedFault : Option XVal

/-- Model of `_send_tcp(to, payload)`.  The oracle `recvRes` stands for the
connect/sendall/recv/decode sequence; any exception inside the `try` block
(including one raised by `_xpath` on the parsed reply) is caught and turns the
result into `''`. -/
def sendTcp (recvRes : Except PyErr (List Char)) (fuel : Nat) : SendTcpOut :=
  match recvRes with
  | .error _ => ⟨.empty, none⟩
  | .ok raw =>
    let d := xml2dict fuel true (unescapeXml raw)
    match xpath d faultPath with
    | .error _ => ⟨.empty, none⟩
    | .ok none => ⟨.parsed d, none⟩
    | .ok (some desc) => ⟨.parsed d, some desc⟩

/-- Constant `URN_AVTransport`. -/
def urnAVTransport : List Char := "urn:schemas-upnp-org:service:AVTransport:1".toList

/-- Constant `URN_RenderingControl`. -/
def urnRenderingControl : List Char := "urn:schemas-upnp-org:service:RenderingControl:1".toList

/-- `URN_AVTransport_Fmt.format(v)`. -/
def urnAVTransportFmt (v : Nat) : List Char :=
  "urn:schemas-upnp-org:service:AVTransport:".toList ++ (Nat.repr v).toList

/-- `URN_RenderingControl_Fmt.format(v)`. -/
def urnRenderingControlFmt (v : Nat) : List Char :=
  "urn:schemas-upnp-org:service:RenderingControl:".toList ++ (Nat.repr v).toList

/-- Field serialisation loop of `_payload_from_template`: each `(tag, value)`
pair becomes `<tag>value</tag>`, in the given insertion order. -/
def fieldsOf (data : List (List Char × List Char)) : List Char :=
  (data.map (fun tv => '<' :: tv.1 ++ '>' :: tv.2 ++ '<' :: '/' :: tv.1 ++ ['>'])).flatten

/-- Model of `DlnapDevice._payload_from_template`: the exact triple-quoted
template of the source (with its embedded newlines and indentation) with
`action`, `urn` and `fields` substituted. -/
def payloadFromTemplate (action : List Char) (data : List (List Char × List Char))
    (urn : List Char) : List Char :=
  "<?xml version=\"1.0\" encoding=\"utf-8\"?>\n         <s:Envelope xmlns:s=\"http://schemas.xmlsoap.org/soap/envelope/\" s:encodingStyle=\"http://schemas.xmlsoap.org/soap/encoding/\">\n            <s:Body>\n               <u:".toList
    ++ action ++ " xmlns:u=\"".toList ++ urn
    ++ "\">\n                  ".toList ++ fieldsOf data
    ++ "\n               </u:".toList ++ action
    ++ ">\n            </s:Body>\n         </s:Envelope>".toList

/-- `"\r\n".join(lines)`. -/
def joinCRLF (lines : List (List Char)) : List Char :=
  (lines.intersperse ['\r', '\n']).flatten

/-- UTF-8 byte length of a string (what `payload.encode('utf-8')` sends). -/
def utf8Len (s : List Char) : Nat := (s.map Char.utf8Size).sum

/-- Model of `DlnapDevice._create_packet`: chooses the RenderingControl
endpoint and urn for `SetVolume`/`SetMute`/`GetVolume` and AVTransport
otherwise, then assembles the HTTP POST with `Content-Length` set to
`len(payload)` (the character count). -/
def createPacket (fileName ip : List Char) (port : Nat)
    (controlUrl renderingUrl : List Char) (ssdpVersion : Nat)
    (action : List Char) (data : List (List Char × List Char)) : List Char :=
  let isRC := action = "SetVolume".toList ∨ action = "SetMute".toList ∨ action = "GetVolume".toList
  let url := if isRC then renderingUrl else controlUrl
  let urn := if isRC then urnRenderingControlFmt ssdpVersion else urnAVTransportFmt ssdpVersion
  let payload := payloadFromTemplate action data urn
  joinCRLF [
    "POST ".toList ++ url ++ " HTTP/1.1".toList,
    "User-Agent: ".toList ++ fileName ++ "/0.15".toList,
    "Accept: */*".toList,
    "Content-Type: text/xml; charset=\"utf-8\"".toList,
    "HOST: ".toList ++ ip ++ ":".toList ++ (Nat.repr port).toList,
    "Content-Length: ".toList ++ (Nat.repr payload.length).toList,
    "SOAPACTION: \"".toList ++ urn ++ "#".toList ++ action ++ "\"".toList,
    "Connection: close".toList,
    [],
    payload ]

/-- State of a `DlnapDevice` after `__init__`: the fields assigned before the
`try` block plus whatever the resolution sequence managed to set; `caught`
records the exception absorbed by the `except` clause, if any. -/
structure DeviceState where
  ip : List Char
  ssdp_version : Nat
  port : Option Nat
  name : XVal
  location : Option (List Char)
  control_url : Option XVal
  rendering_control_url : Option XVal
  has_av_transport : Bool
  caught : Option PyErr

/-- Friendly-name path of `_get_friendly_name`. -/
def friendlyNamePath : List Char := "root/device/friendlyName".toList

/-- Control-URL path template of `_get_control_url`. -/
def controlUrlPath (urn : List Char) : List Char :=
  "root/device/serviceList/service@serviceType=".toList ++ urn ++ "/controlURL".toList

/-- Model of `_get_control_url(xml, urn)`. -/
def getControlUrl (xml : XDict) (urn : List Char) : Except PyErr (Option XVal) :=
  xpath xml (controlUrlPath urn)

/-- Model of `_get_friendly_name(xml)`: the value at the friendly-name path,
or `'Unknown'` when the path is absent; an `_xpath` exception propagates. -/
def getFriendlyName (xml : XDict) : Except PyErr XVal :=
  match xpath xml friendlyNamePath with
  | .error e => .error e
  | .ok (some v) => .ok v
  | .ok none => .ok (.leaf "Unknown".toList)

/-- Model of `DlnapDevice.__init__(raw, ip)`.  `decodeRes` stands for
`raw.decode()` and `fetch` for `urlopen(location).read().decode()`; every
step of the `try` block is taken in source order, and the first failing step
ends the sequence with the state built so far (the `except` clause only
logs). -/
def dlnapInit (ip : List Char) (decodeRes : Except PyErr (List Char))
    (fetch : List Char → Except PyErr (List Char)) (fuel : Nat) : DeviceState :=
  let st0 : DeviceState :=
    { ip := ip, ssdp_version := 1, port := none, name := .leaf "Unknown".toList,
      location := none, control_url := none, rendering_control_url := none,
      has_av_transport := false, caught := none }
  match decodeRes with
  | .error e => { st0 with caught := some e }
  | .ok raw =>
    let loc := getLocationUrl raw
    let st1 := { st0 with location := some loc, port := some (getPort loc) }
    match fetch loc with
    | .error e => { st1 with caught := some e }
    | .ok descr =>
      let descXml := xml2dict fuel false descr
      match getFriendlyName descXml with
      | .error e => { st1 with caught := some e }
      | .ok nm =>
        let st2 := { st1 with name := nm }
        match getControlUrl descXml urnAVTransport with
        | .error e => { st2 with caught := some e }
        | .ok cu =>
          let st3 := { st2 with control_url := cu }
          match getControlUrl descXml urnRenderingControl with
          | .error e => { st3 with caught := some e }
          | .ok rcu =>
            { st3 with rendering_control_url := rcu, has_av_transport := cu.isSome }

/-- Identity-relevant fields of a discovered device (`DlnapDevice` as seen by
the discovery loop; resolution effects are folded into the `resolve`
oracle). -/
structure DDevice where
  name : List Char
  ip : List Char
  has_av_transport : Bool
  deriving DecidableEq, Repr

/-- Model of `DlnapDevice.__eq__`: equality solely by name and ip. -/
def deviceEq (a b : DDevice) : Bool :=
  a.name = b.name ∧ a.ip = b.ip

/-- One iteration's worth of input to the discovery loop: the elapsed time at
the top-of-loop check plus what `select` reported (a datagram, the socket in
the exceptional set, nothing) or a `KeyboardInterrupt`. -/
inductive DiscEvent where
  | recv (elapsed : Nat) (data : List Char) (sender : List Char)
  | selExc (elapsed : Nat)
  | selNone (elapsed : Nat)
  | ctrlC (elapsed : Nat)
  deriving DecidableEq, Repr

/-- Elapsed time attached to the event. -/
def DiscEvent.elapsed : DiscEvent → Nat
  | .recv e _ _ => e
  | .selExc e => e
  | .selNone e => e
  | .ctrlC e => e

/-- Whether the event is the socket showing up in the exceptional set. -/
def isSelExc : DiscEvent → Bool
  | .selExc _ => true
  | _ => false

/-- How the discovery loop ended. -/
inductive ExitKind where
  | timedOut
  | eventsEnded
  | ipBreak
  | interrupted
  | sockError
  deriving DecidableEq, Repr

/-- Output of the discovery loop: the accumulated device list, the printed
`(index, device)` reports, every device constructed from a processed datagram,
and the exit reason. -/
structure LoopOut where
  devices : List DDevice
  printed : List (Nat × DDevice)
  resolved : List DDevice
  exit : ExitKind
  deriving Repr

/-- Python `d not in self.devices` (via `DlnapDevice.__eq__`). -/
def memB (d : DDevice) (l : List DDevice) : Bool :=
  l.any (fun e => deviceEq e d)

/-- Python `self.devices.index(d)` (first index equal under `__eq__`). -/
def indexOfEq : List DDevice → DDevice → Nat
  | [], _ => 0
  | e :: r, d => if deviceEq e d then 0 else indexOfEq r d + 1

/-- Model of the `while True` loop of `Cli.discover`: the timeout check, the
ip filter, device resolution, deduplication against `self.devices`, the
case-insensitive name-substring filter, the printed report, and the early
break of an ip-targeted search when the device has AVTransport; `sock in x`
raises `Exception('Getting response failed')`. -/
def discoverLoop (resolve : List Char → List Char → List Char × Bool)
    (nameF ipF : List Char) (timeout : Nat) :
    List DiscEvent → List DDevice → List (Nat × DDevice) → List DDevice → LoopOut
  | [], devs, pr, res => ⟨devs, pr, res, .eventsEnded⟩
  | ev :: rest, devs, pr, res =>
    if ev.elapsed > timeout then ⟨devs, pr, res, .timedOut⟩
    else
      match ev with
      | .selNone _ => discoverLoop resolve nameF ipF timeout rest devs pr res
      | .selExc _ => ⟨devs, pr, res, .sockError⟩
      | .ctrlC _ => ⟨devs, pr, res, .interrupted⟩
      | .recv _ data sender =>
        if ipF ≠ [] ∧ sender ≠ ipF then discoverLoop resolve nameF ipF timeout rest devs pr res
        else
          let nb := resolve data sender
          let d : DDevice := ⟨nb.1, sender, nb.2⟩
          let res' := res ++ [d]
          if memB d devs then discoverLoop resolve nameF ipF timeout rest devs pr res'
          else if nameF = [] ∨ containsSub (lowerStr nameF) (lowerStr d.name) then
            let devs' := devs ++ [d]
            let pr' := pr ++ [(indexOfEq devs' d, d)]
            if ipF = [] then discoverLoop resolve nameF ipF timeout rest devs' pr' res'
            else if d.has_av_transport then ⟨devs', pr', res', .ipBreak⟩
            else discoverLoop resolve nameF ipF timeout rest devs' pr' res'
          else discoverLoop resolve nameF ipF timeout rest devs pr res'

/-- Observable outcome of a `Cli.discover` call.  `socketClosed` follows the
semantics of the `@contextmanager` generator `_send_udp`, which has no
`try/finally`: `sock.close()` runs only when the `with` body completes
without raising.  The body's `try` catches only `KeyboardInterrupt`, so the
`Exception` of the `sock in x` branch propagates (`raised`).  `retval` is the
Python return value of `discover`. -/
structure DiscoverResult where
  devices : List DDevice
  printed : List (Nat × DDevice)
  resolved : List DDevice
  exit : ExitKind
  socketClosed : Bool
  raised : Bool
  retval : Option (List DDevice)
  deriving Repr

/-- Model of `Cli.discover`: run the loop on the events, catch only
`KeyboardInterrupt`, and apply the `_send_udp` context-manager semantics.
`initDevices` is the current value of the shared `self.devices` attribute.
The source has no `return` statement, so `retval` is `none`. -/
def discover (resolve : List Char → List Char → List Char × Bool)
    (nameF ipF : List Char) (timeout : Nat) (events : List DiscEvent)
    (initDevices : List DDevice) : DiscoverResult :=
  let lo := discoverLoop resolve nameF ipF timeout events initDevices [] []
  let raised : Bool := lo.exit = ExitKind.sockError
  { devices := lo.devices, printed := lo.printed, resolved := lo.resolved,
    exit := lo.exit, socketClosed := !raised, raised := raised, retval := none }

/-! Concrete inputs shared by witnesses and counterexamples. -/

/-- A stray closing tag, as in the `_xml2dict` docstring example. -/
def strayCloseInput : List Char := '<' :: '/' :: 'c' :: '>' :: []

/-- A self-closing tag in the exact shape `_get_tag_value` normalises. -/
def selfClosingInput : List Char := '<' :: 't' :: 'a' :: 'g' :: ' ' :: '/' :: '>' :: []

/-- One filtered entry carrying the attribute key with a non-matching value. -/
def filterMissDict : XDict := [(['a'], [XVal.node [(['b'], [XVal.leaf ['3']])]])]

/-- One filtered entry lacking the attribute key entirely. -/
def filterKeyErrDict : XDict := [(['a'], [XVal.node [(['x'], [XVal.leaf ['1']])]])]

/-- An HTTP reply carrying a SOAP fault envelope. -/
def faultReplyRaw : List Char :=
  "HTTP/1.1 500 Internal Server Error\r\n\r\n<s:Envelope><s:Body><s:Fault><detail><UPnPError><errorDescription>Action Failed</errorDescription></UPnPError></detail></s:Fault></s:Body></s:Envelope>".toList

/-- The SOAP body built for action `Play` with fields
`InstanceID: 0, Speed: 1` (the dict literal's insertion order). -/
def playPayload : List Char :=
  payloadFromTemplate "Play".toList
    [("InstanceID".toList, "0".toList), ("Speed".toList, "1".toList)]
    (urnAVTransportFmt 1)

/-- A discovery response carrying a LOCATION header. -/
def deviceRawLoc : List Char :=
  "HTTP/1.1 200 OK\r\nLOCATION: http://h:99/desc.xml\r\n\r\n".toList

/-- A discovery response without any LOCATION header. -/
def deviceRawNoLoc : List Char := "HTTP/1.1 200 OK\r\nEXT:\r\n\r\n".toList

/-- A device description whose AVTransport service resolves but whose second
`service` sibling is bare text, so the RenderingControl filter scan indexes a
string and raises `TypeError`. -/
def descJunkService : List Char :=
  "<root><device><friendlyName>TV</friendlyName><serviceList><service><serviceType>urn:schemas-upnp-org:service:AVTransport:1</serviceType><controlURL>/ctrl</controlURL></service><service>junk</service></serviceList></device></root>".toList

/-- Fetch oracle returning the junk-service description for any URL. -/
def fetchJunkService : List Char → Except PyErr (List Char) := fun _ => .ok descJunkService

/-- Fetch oracle that always fails (unreachable or invalid location URL). -/
def fetchFail : List Char → Except PyErr (List Char) := fun _ => .error .netError

/-- Resolve oracle used by discovery witnesses: the datagram text is the
friendly name and every device has AVTransport. -/
def resolveEcho : List Char → List Char → List Char × Bool := fun data _ => (data, true)

/-- Characters allowed in tag names of the well-behaved XML family used for
the amended C1: no markup, no whitespace, no path metacharacters. -/
def plainChar (c : Char) : Bool :=
  ¬ (c = '<' ∨ c = '>' ∨ c = '/' ∨ c = '@' ∨ c = '=' ∨ c = '?' ∨ pySpace c = true)

/-- Every character of the string is plain. -/
def plainStr (s : List Char) : Prop := ∀ c ∈ s, plainChar c = true

/-- Wrap inner content in an open/close tag pair. -/
def wrapTag (t inner : List Char) : List Char :=
  '<' :: t ++ '>' :: inner ++ '<' :: '/' :: t ++ ['>']

/-- Render a chain of single-child elements around a text leaf. -/
def renderChain (tags : List (List Char)) (txt : List Char) : List Char :=
  tags.foldr wrapTag txt

/-- The dictionary the parser produces for a rendered chain. -/
def chainDict : List (List Char) → List Char → XDict
  | [], _ => []
  | [t], txt => [(t, [XVal.leaf txt])]
  | t :: rest, txt => [(t, [XVal.node (chainDict rest txt)])]

/-- The slash-joined path addressing the leaf of a chain. -/
def pathOfTags (tags : List (List Char)) : List Char :=
  (tags.intersperse ['/']).flatten

/-! Helper lemmas about the Python string primitives. -/

theorem pySplit_not_mem (c : Char) (l : List Char) (h : c ∉ l) : pySplit c l = [l] := by
  induction l with
  | nil => rfl
  | cons a rest ih =>
    have ha : ¬ a = c := by intro e; exact h (by simp [e])
    have hr : c ∉ rest := by intro e; exact h (by simp [e])
    simp [pySplit, ha, ih hr]

theorem pySplit_append_cons (c : Char) (x y : List Char) (h : c ∉ x) :
    pySplit c (x ++ c :: y) = x :: pySplit c y := by
  induction x with
  | nil => simp [pySplit]
  | cons a rest ih =>
    have ha : ¬ a = c := by intro e; exact h (by simp [e])
    have hr : c ∉ rest := by intro e; exact h (by simp [e])
    simp [pySplit, ha, ih hr]

theorem scanEntries_no_match (a aval : List Char) (entries : List XVal)
    (h : ∀ s ∈ entries, ∃ sd vs, s = XVal.node sd ∧ pyFind sd a = some vs ∧
      eqSingletonLeaf vs aval = false) :
    scanEntries a aval entries = .ok none := by
  induction entries with
  | nil => rfl
  | cons s rest ih =>
    have hrest := ih (fun t ht => h t (List.mem_cons_of_mem s ht))
    obtain ⟨sd, vs, hs, hfind, hne⟩ := h s (List.mem_cons_self s rest)
    subst hs
    simp [scanEntries, hfind, hne, hrest]


/-- C9: path evaluation is not total over parsed trees: when an unfiltered
segment names a tag whose child sequence is empty (as parsing an element with
empty content or a stray closing tag produces), `_xpath` evaluates
`d[tag][0]` and raises `IndexError` instead of returning the `None`
sentinel. -/
theorem xpath_empty_children_raises_indexError
    (d : XDict) (tag : List Char)
    (h1 : pyFind d tag = some []) (h2 : '@' ∉ tag) (h3 : '/' ∉ tag) :
    xpath d tag = .error PyErr.indexError := by
  unfold xpath
  rw [pySplit_not_mem '/' tag h3]
  simp [xpathSegs, pySplit_not_mem '@' tag h2, h1]

/-- Witness for C9: the dictionary parsed from the stray closing tag `</c>`
holds an empty child list under `c`, and the path `c` raises. -/
theorem xpath_empty_children_raises_indexError_witness :
    xpath (xml2dict 10 false strayCloseInput) ['c'] = .error PyErr.indexError :=
  xpath_empty_children_raises_indexError _ ['c'] rfl (by decide) (by decide)

/-- C10 (amended): when every entry under the filtered tag is a node carrying
the attribute key with a child list different from `[value]`, the filter loop
matches nothing, the current node is left unchanged and evaluation silently
continues with the next segment against the same node.  (As stated the claim
is false: an entry lacking the key raises `KeyError`, a leaf entry raises
`TypeError` — see the counterexample.) -/
theorem xpath_attr_filter_no_match_skips_segment
    (dd : XDict) (tag a aval : List Char) (entries : List XVal) (rest : List (List Char))
    (htag : '@' ∉ tag) (ha1 : '@' ∉ a) (ha2 : '=' ∉ a)
    (hv1 : '@' ∉ aval) (hv2 : '=' ∉ aval)
    (hfind : pyFind dd tag = some entries)
    (hmiss : ∀ s ∈ entries, ∃ sd vs, s = XVal.node sd ∧ pyFind sd a = some vs ∧
      eqSingletonLeaf vs aval = false) :
    xpathSegs (.node dd) ((tag ++ '@' :: (a ++ '=' :: aval)) :: rest) =
      xpathSegs (.node dd) rest := by
  have hno : '@' ∉ a ++ '=' :: aval := by
    intro hmem
    rcases List.mem_append.mp hmem with hx | hx
    · exact ha1 hx
    · rcases List.mem_cons.mp hx with hx | hx
      · exact absurd hx (by decide)
      · exact hv1 hx
  have hsplit1 : pySplit '@' (tag ++ '@' :: (a ++ '=' :: aval)) = tag :: [a ++ '=' :: aval] := by
    rw [pySplit_append_cons '@' tag _ htag, pySplit_not_mem '@' _ hno]
  have hsplit2 : pySplit '=' (a ++ '=' :: aval) = [a, aval] := by
    rw [pySplit_append_cons '=' a aval ha2, pySplit_not_mem '=' aval hv2]
  have hne : ¬ (a ++ '=' :: aval = ([] : List Char)) := by simp
  simp only [xpathSegs, hsplit1, List.headD, List.drop, hfind, hsplit2,
    scanEntries_no_match a aval entries hmiss, if_neg hne]

/-- Counterexample for C10: with filter `a@b=2` and an entry lacking the
attribute key `b`, `s['b']` raises `KeyError` — evaluation fails rather than
leaving the node unchanged and continuing. -/
theorem xpath_attr_filter_missing_key_raises :
    xpath filterKeyErrDict ('a' :: '@' :: 'b' :: '=' :: '2' :: []) = .error PyErr.keyError := by
  rfl

/-- Witness for C10: the same filter against an entry that carries `b` with a
different value matches nothing and evaluation continues (here: the path ends
and the unchanged node is returned). -/
theorem xpath_attr_filter_no_match_skips_segment_witness :
    xpath filterMissDict ('a' :: '@' :: 'b' :: '=' :: '2' :: []) =
      .ok (some (.node filterMissDict)) := by
  have h := xpath_attr_filter_no_match_skips_segment filterMissDict ['a'] ['b'] ['2']
    [XVal.node [(['b'], [XVal.leaf ['3']])]] []
    (by decide) (by decide) (by decide) (by decide) (by decide) rfl
    (by
      intro s hs
      simp only [List.mem_singleton] at hs
      subst hs
      exact ⟨[(['b'], [XVal.leaf ['3']])], [XVal.leaf ['3']], rfl, rfl, rfl⟩)
  calc xpath filterMissDict ('a' :: '@' :: 'b' :: '=' :: '2' :: [])
      = xpathSegs (.node filterMissDict) [('a' :: '@' :: ('b' :: '=' :: '2' :: []))] := rfl
    _ = xpathSegs (.node filterMissDict) [] := h
    _ = .ok (some (.node filterMissDict)) := rfl

/-- C8: parsing the self-closing tag `<tag />` does produce a single textual
leaf under `tag`, but `_get_tag_value` replaces `<tag />` by
`<tag>None</tag>` without moving its scan index, so the leaf comes out as
`ne` — not the `None` null-marker the normalisation (per its own comment)
intends. -/
theorem xml2dict_self_closing_yields_ne :
    xml2dict 10 false selfClosingInput = [(('t' :: 'a' :: 'g' :: []), [XVal.leaf ['n', 'e']])] ∧
    xml2dict 10 false selfClosingInput ≠
      [(('t' :: 'a' :: 'g' :: []), [XVal.leaf ('N' :: 'o' :: 'n' :: 'e' :: [])])] := by
  refine ⟨rfl, ?_⟩
  intro h
  have h1 : xml2dict 10 false selfClosingInput
      = [(('t' :: 'a' :: 'g' :: []), [XVal.leaf ['n', 'e']])] := rfl
  rw [h1] at h
  injection h with hpair htail
  injection hpair with hk hv
  injection hv with hleaf hnil
  injection hleaf with hs
  exact absurd hs (by decide)

/-- C4: any network/timeout exception inside `_send_tcp`'s try block yields
the empty response `''` with nothing logged and no exception escaping the
call; and a reply whose parsed structure holds a fault description at
`s:Envelope/s:Body/s:Fault/detail/UPnPError/errorDescription` is still
returned parsed to the caller, with the description only logged. -/
theorem sendTcp_absorbs_errors_and_returns_faulted_reply :
    (∀ (e : PyErr) (fuel : Nat), sendTcp (.error e) fuel = ⟨.empty, none⟩)
    ∧ ∀ (raw : List Char) (fuel : Nat) (desc : XVal),
        xpath (xml2dict fuel true (unescapeXml raw)) faultPath = .ok (some desc) →
        sendTcp (.ok raw) fuel =
          ⟨.parsed (xml2dict fuel true (unescapeXml raw)), some desc⟩ := by
  refine ⟨fun e fuel => rfl, fun raw fuel desc h => ?_⟩
  simp only [sendTcp, h]


/-- Witness for C4: a concrete faulted reply comes back parsed, with the
fault description logged, not raised. -/
theorem sendTcp_absorbs_errors_and_returns_faulted_reply_witness :
    sendTcp (.ok faultReplyRaw) 60 =
      ⟨.parsed (xml2dict 60 true (unescapeXml faultReplyRaw)),
        some (XVal.leaf "Action Failed".toList)⟩ :=
  sendTcp_absorbs_errors_and_returns_faulted_reply.2 faultReplyRaw 60
    (XVal.leaf "Action Failed".toList) rfl


/-- C5: the `Play` body contains `<InstanceID>0</InstanceID><Speed>1</Speed>`
in that insertion order, the header count `len(payload)` equals the UTF-8
byte length of the body, and the assembled packet carries exactly the header
line `Content-Length: <that byte length>`. -/
theorem play_packet_field_order_and_content_length :
    containsSub "<InstanceID>0</InstanceID><Speed>1</Speed>".toList playPayload = true
    ∧ playPayload.length = utf8Len playPayload
    ∧ containsSub
        ("Content-Length: ".toList ++ (Nat.repr (utf8Len playPayload)).toList ++ ['\r'])
        (createPacket "dlnap.py".toList "10.0.0.2".toList 80 "/ctrl".toList "/rctrl".toList 1
          "Play".toList [("InstanceID".toList, "0".toList), ("Speed".toList, "1".toList)])
      = true :=
  ⟨rfl, rfl, rfl⟩


/-- Counterexample for C2: when the RenderingControl resolution step raises
after the AVTransport control URL has already been set, the returned device
has a caught exception and capability flag false, yet its AVTransport control
URL is not null — resolution failed but the control URLs are not all null. -/
theorem dlnapInit_failed_resolution_nonnull_control_url :
    (dlnapInit "10.0.0.5".toList (.ok deviceRawLoc) fetchJunkService 60).caught
        = some PyErr.typeError
    ∧ (dlnapInit "10.0.0.5".toList (.ok deviceRawLoc) fetchJunkService 60).has_av_transport
        = false
    ∧ (dlnapInit "10.0.0.5".toList (.ok deviceRawLoc) fetchJunkService 60).control_url
        = some (XVal.leaf "/ctrl".toList)
    ∧ (dlnapInit "10.0.0.5".toList (.ok deviceRawLoc) fetchJunkService 60).control_url
        ≠ none := by
  refine ⟨rfl, rfl, rfl, ?_⟩
  intro h
  have h1 : (dlnapInit "10.0.0.5".toList (.ok deviceRawLoc) fetchJunkService 60).control_url
      = some (XVal.leaf "/ctrl".toList) := rfl
  rw [h1] at h
  exact Option.noConfusion h

/-- C2 (amended): `DlnapDevice.__init__` never raises — every oracle outcome
yields a device state.  Whenever a resolution step failed (an exception was
caught), the capability flag is false and the RenderingControl URL is null;
the AVTransport control URL may however already be set when the failure hit
the RenderingControl step.  When fetching the extracted location fails (for
instance because the LOCATION header is missing and `urlopen('')` raises),
the device additionally keeps null control URLs and the default name. -/
theorem dlnapInit_caught_implies_flag_false_amended
    (ip : List Char) (decodeRes : Except PyErr (List Char))
    (fetch : List Char → Except PyErr (List Char)) (fuel : Nat) :
    ((dlnapInit ip decodeRes fetch fuel).caught.isSome →
        (dlnapInit ip decodeRes fetch fuel).has_av_transport = false
        ∧ (dlnapInit ip decodeRes fetch fuel).rendering_control_url = none)
    ∧ (∀ raw e, decodeRes = .ok raw → fetch (getLocationUrl raw) = .error e →
        (dlnapInit ip decodeRes fetch fuel).has_av_transport = false
        ∧ (dlnapInit ip decodeRes fetch fuel).control_url = none
        ∧ (dlnapInit ip decodeRes fetch fuel).rendering_control_url = none
        ∧ (dlnapInit ip decodeRes fetch fuel).name = .leaf "Unknown".toList
        ∧ (dlnapInit ip decodeRes fetch fuel).caught = some e) := by
  cases decodeRes with
  | error e =>
    exact ⟨fun _ => ⟨rfl, rfl⟩, fun raw e' hraw => by cases hraw⟩
  | ok raw =>
    constructor
    · intro hs
      cases hf : fetch (getLocationUrl raw) with
      | error e => simp [dlnapInit, hf]
      | ok descr =>
        cases hg : getFriendlyName (xml2dict fuel false descr) with
        | error e => simp [dlnapInit, hf, hg]
        | ok nm =>
          cases hc : getControlUrl (xml2dict fuel false descr) urnAVTransport with
          | error e => simp [dlnapInit, hf, hg, hc]
          | ok cu =>
            cases hr : getControlUrl (xml2dict fuel false descr) urnRenderingControl with
            | error e => simp [dlnapInit, hf, hg, hc, hr]
            | ok rcu =>
              exfalso
              simp only [dlnapInit, hf, hg, hc, hr] at hs
              simp at hs
    · intro raw' e hraw hfetch
      injection hraw with hraw'
      subst hraw'
      simp [dlnapInit, hfetch]

/-- Witness for C2: with no LOCATION header and a failing fetch, the device
comes back with capability false, null control URLs, the default name and the
caught network error; the caught-flag consequence also fires. -/
theorem dlnapInit_caught_implies_flag_false_amended_witness :
    ((dlnapInit "10.0.0.5".toList (.ok deviceRawNoLoc) fetchFail 60).has_av_transport = false
      ∧ (dlnapInit "10.0.0.5".toList (.ok deviceRawNoLoc) fetchFail 60).control_url = none
      ∧ (dlnapInit "10.0.0.5".toList (.ok deviceRawNoLoc) fetchFail 60).rendering_control_url = none
      ∧ (dlnapInit "10.0.0.5".toList (.ok deviceRawNoLoc) fetchFail 60).name
          = .leaf "Unknown".toList
      ∧ (dlnapInit "10.0.0.5".toList (.ok deviceRawNoLoc) fetchFail 60).caught
          = some PyErr.netError)
    ∧ ((dlnapInit "10.0.0.5".toList (.ok deviceRawNoLoc) fetchFail 60).has_av_transport = false
      ∧ (dlnapInit "10.0.0.5".toList (.ok deviceRawNoLoc) fetchFail 60).rendering_control_url
          = none) :=
  ⟨(dlnapInit_caught_implies_flag_false_amended "10.0.0.5".toList (.ok deviceRawNoLoc)
      fetchFail 60).2 deviceRawNoLoc PyErr.netError rfl rfl,
   (dlnapInit_caught_implies_flag_false_amended "10.0.0.5".toList (.ok deviceRawNoLoc)
      fetchFail 60).1 rfl⟩

/-! Helper lemmas about device identity and the discovery loop. -/

theorem deviceEq_iff (a b : DDevice) :
    deviceEq a b = true ↔ a.name = b.name ∧ a.ip = b.ip := by
  simp [deviceEq]

theorem deviceEq_of_both (a b c : DDevice) (h1 : deviceEq a c = true)
    (h2 : deviceEq b c = true) : deviceEq a b = true := by
  rw [deviceEq_iff] at h1 h2 ⊢
  exact ⟨h1.1.trans h2.1.symm, h1.2.trans h2.2.symm⟩

theorem memB_false_forall {d : DDevice} {l : List DDevice} (h : memB d l = false) :
    ∀ e ∈ l, deviceEq e d = false := by
  intro e he
  have := List.any_eq_false.mp h e he
  simpa using this

theorem memB_true_exists {d : DDevice} {l : List DDevice} (h : memB d l = true) :
    ∃ e ∈ l, deviceEq e d = true := by
  simpa [memB, List.any_eq_true] using h

theorem countP_zero_of_memB_false {d : DDevice} {l : List DDevice}
    (h : memB d l = false) : l.countP (fun e => deviceEq e d) = 0 := by
  rw [List.countP_eq_zero]
  intro a ha
  simp [memB_false_forall h a ha]

theorem countP_one_of_memB_true {d : DDevice} {l : List DDevice}
    (hp : l.Pairwise (fun a b => deviceEq a b = false))
    (h : memB d l = true) : l.countP (fun e => deviceEq e d) = 1 := by
  induction l with
  | nil => simp [memB] at h
  | cons e r ih =>
    rw [List.pairwise_cons] at hp
    rw [List.countP_cons]
    by_cases he : deviceEq e d = true
    · have hzero : r.countP (fun x => deviceEq x d) = 0 := by
        rw [List.countP_eq_zero]
        intro x hx
        simp only [Bool.not_eq_true]
        by_contra hxd
        rw [Bool.not_eq_false] at hxd
        have hex : deviceEq e x = true := deviceEq_of_both e x d he hxd
        rw [hp.1 x hx] at hex
        cases hex
      simp [he, hzero]
    · have he' : deviceEq e d = false := by
        cases hval : deviceEq e d
        · rfl
        · exact absurd hval he
      have hmem : memB d r = true := by
        rcases memB_true_exists h with ⟨x, hx, hxd⟩
        rcases List.mem_cons.mp hx with hxe | hxr
        · subst hxe; exact absurd hxd he
        · exact List.any_eq_true.mpr ⟨x, hxr, by simpa using hxd⟩
      rw [ih hp.2 hmem]
      simp [he']

theorem discoverLoop_pairwise (resolve : List Char → List Char → List Char × Bool)
    (nameF ipF : List Char) (timeout : Nat) (events : List DiscEvent) :
    ∀ (devs : List DDevice) (pr : List (Nat × DDevice)) (res : List DDevice),
      devs.Pairwise (fun a b => deviceEq a b = false) →
      (discoverLoop resolve nameF ipF timeout events devs pr res).devices.Pairwise
        (fun a b => deviceEq a b = false) := by
  induction events with
  | nil => intro devs pr res h; exact h
  | cons ev rest ih =>
    intro devs pr res h
    simp only [discoverLoop]
    split
    · exact h
    · split
      · exact ih devs pr res h
      · exact h
      · exact h
      · rename_i elapsedv data sender hto
        split
        · exact ih devs pr res h
        · split
          · exact ih devs pr _ h
          · rename_i hm
            have hm' : memB ⟨(resolve data sender).1, sender, (resolve data sender).2⟩ devs = false := by
              cases hval : memB ⟨(resolve data sender).1, sender, (resolve data sender).2⟩ devs
              · rfl
              · exact absurd hval hm
            have hpw : (devs ++ [(⟨(resolve data sender).1, sender, (resolve data sender).2⟩ : DDevice)]).Pairwise
                (fun a b => deviceEq a b = false) := by
              rw [List.pairwise_append]
              refine ⟨h, List.pairwise_singleton _ _, ?_⟩
              intro a ha b hb
              rw [List.mem_singleton] at hb
              subst hb
              exact memB_false_forall hm' a ha
            split
            · split
              · exact ih _ _ _ hpw
              · split
                · exact hpw
                · exact ih _ _ _ hpw
            · exact ih devs pr _ h

theorem deviceEq_refl (a : DDevice) : deviceEq a a = true := by
  simp [deviceEq]

theorem discoverLoop_resolved_count (resolve : List Char → List Char → List Char × Bool)
    (ipF : List Char) (timeout : Nat) (events : List DiscEvent) :
    ∀ (devs : List DDevice) (pr : List (Nat × DDevice)) (res : List DDevice),
      devs.Pairwise (fun a b => deviceEq a b = false) →
      (∀ x ∈ res, devs.countP (fun e => deviceEq e x) = 1) →
      ∀ x ∈ (discoverLoop resolve [] ipF timeout events devs pr res).resolved,
        (discoverLoop resolve [] ipF timeout events devs pr res).devices.countP
          (fun e => deviceEq e x) = 1 := by
  induction events with
  | nil => intro devs pr res hp hres; exact hres
  | cons ev rest ih =>
    intro devs pr res hp hres
    simp only [discoverLoop]
    split
    · exact hres
    · split
      · exact ih devs pr res hp hres
      · exact hres
      · exact hres
      · rename_i elapsedv data sender hto
        split
        · exact ih devs pr res hp hres
        · split
          · rename_i hm
            refine ih devs pr _ hp ?_
            intro x hx
            rcases List.mem_append.mp hx with hxr | hxd
            · exact hres x hxr
            · rw [List.mem_singleton] at hxd
              subst hxd
              exact countP_one_of_memB_true hp hm
          · rename_i hm
            have hm' : memB ⟨(resolve data sender).1, sender, (resolve data sender).2⟩ devs = false := by
              cases hval : memB ⟨(resolve data sender).1, sender, (resolve data sender).2⟩ devs
              · rfl
              · exact absurd hval hm
            have hpw : (devs ++ [(⟨(resolve data sender).1, sender, (resolve data sender).2⟩ : DDevice)]).Pairwise
                (fun a b => deviceEq a b = false) := by
              rw [List.pairwise_append]
              refine ⟨hp, List.pairwise_singleton _ _, ?_⟩
              intro a ha b hb
              rw [List.mem_singleton] at hb
              subst hb
              exact memB_false_forall hm' a ha
            have hres' : ∀ x ∈ res ++ [(⟨(resolve data sender).1, sender, (resolve data sender).2⟩ : DDevice)],
                (devs ++ [(⟨(resolve data sender).1, sender, (resolve data sender).2⟩ : DDevice)]).countP
                  (fun e => deviceEq e x) = 1 := by
              intro x hx
              rcases List.mem_append.mp hx with hxr | hxd
              · have h1 := hres x hxr
                have hdx : deviceEq ⟨(resolve data sender).1, sender, (resolve data sender).2⟩ x = false := by
                  by_contra hc
                  rw [Bool.not_eq_false] at hc
                  have hpos : 0 < devs.countP (fun e => deviceEq e x) := by omega
                  rcases List.countP_pos_iff.mp hpos with ⟨e, he, hex⟩
                  have hed : deviceEq e ⟨(resolve data sender).1, sender, (resolve data sender).2⟩ = true :=
                    deviceEq_of_both e _ x (by simpa using hex) hc
                  have hmm : memB ⟨(resolve data sender).1, sender, (resolve data sender).2⟩ devs = true :=
                    List.any_eq_true.mpr ⟨e, he, by simpa using hed⟩
                  rw [hm'] at hmm
                  cases hmm
                rw [List.countP_append]
                simp [List.countP_cons, hdx, h1]
              · rw [List.mem_singleton] at hxd
                subst hxd
                rw [List.countP_append, countP_zero_of_memB_false hm']
                simp [List.countP_cons, deviceEq_refl]
            rw [if_pos (Or.inl trivial)]
            split
            · exact ih _ _ _ hpw hres'
            · split
              · exact hres'
              · exact ih _ _ _ hpw hres'

theorem indexOfEq_append_self (devs : List DDevice) (d : DDevice)
    (h : memB d devs = false) : indexOfEq (devs ++ [d]) d = devs.length := by
  induction devs with
  | nil => simp [indexOfEq, deviceEq_refl]
  | cons e r ih =>
    have he : deviceEq e d = false := memB_false_forall h e (List.mem_cons_self e r)
    have hr : memB d r = false := by
      cases hval : memB d r
      · rfl
      · rcases memB_true_exists hval with ⟨x, hx, hxe⟩
        have hxf : deviceEq x d = false := memB_false_forall h x (List.mem_cons_of_mem e hx)
        rw [hxf] at hxe
        cases hxe
    simp [indexOfEq, he, ih hr]

theorem discoverLoop_printed_enum (resolve : List Char → List Char → List Char × Bool)
    (nameF ipF : List Char) (timeout : Nat) (events : List DiscEvent) :
    ∀ (devs : List DDevice) (pr : List (Nat × DDevice)) (res : List DDevice),
      pr = devs.enum →
      (discoverLoop resolve nameF ipF timeout events devs pr res).printed
        = (discoverLoop resolve nameF ipF timeout events devs pr res).devices.enum := by
  induction events with
  | nil => intro devs pr res h; exact h
  | cons ev rest ih =>
    intro devs pr res h
    simp only [discoverLoop]
    split
    · exact h
    · split
      · exact ih devs pr res h
      · exact h
      · exact h
      · rename_i elapsedv data sender hto
        split
        · exact ih devs pr res h
        · split
          · exact ih devs pr _ h
          · rename_i hm
            have hm' : memB ⟨(resolve data sender).1, sender, (resolve data sender).2⟩ devs = false := by
              cases hval : memB ⟨(resolve data sender).1, sender, (resolve data sender).2⟩ devs
              · rfl
              · exact absurd hval hm
            have henum : pr ++ [(indexOfEq
                  (devs ++ [(⟨(resolve data sender).1, sender, (resolve data sender).2⟩ : DDevice)])
                  ⟨(resolve data sender).1, sender, (resolve data sender).2⟩,
                (⟨(resolve data sender).1, sender, (resolve data sender).2⟩ : DDevice))]
                = (devs ++ [(⟨(resolve data sender).1, sender, (resolve data sender).2⟩ : DDevice)]).enum := by
              rw [indexOfEq_append_self devs _ hm', List.enum_append, h]
              rfl
            split
            · split
              · exact ih _ _ _ henum
              · split
                · exact henum
                · exact ih _ _ _ henum
            · exact ih devs pr _ h

theorem discoverLoop_no_selExc (resolve : List Char → List Char → List Char × Bool)
    (nameF ipF : List Char) (timeout : Nat) (events : List DiscEvent) :
    ∀ (devs : List DDevice) (pr : List (Nat × DDevice)) (res : List DDevice),
      (∀ e ∈ events, isSelExc e = false) →
      (discoverLoop resolve nameF ipF timeout events devs pr res).exit ≠ ExitKind.sockError := by
  induction events with
  | nil => intro devs pr res h hc; exact ExitKind.noConfusion hc
  | cons ev rest ih =>
    intro devs pr res h
    have hrest : ∀ e ∈ rest, isSelExc e = false :=
      fun e he => h e (List.mem_cons_of_mem ev he)
    simp only [discoverLoop]
    split
    · exact fun hc => ExitKind.noConfusion hc
    · split
      · exact ih devs pr res hrest
      · rename_i t hto
        have hfalse := h (DiscEvent.selExc t) (List.mem_cons_self _ _)
        simp [isSelExc] at hfalse
      · exact fun hc => ExitKind.noConfusion hc
      · rename_i elapsedv data sender hto
        split
        · exact ih devs pr res hrest
        · split
          · exact ih devs pr _ hrest
          · split
            · split
              · exact ih _ _ _ hrest
              · split
                · exact fun hc => ExitKind.noConfusion hc
                · exact ih _ _ _ hrest
            · exact ih devs pr _ hrest

/-- C3 (amended): the discovery loop's UDP socket is closed on the timeout,
loop-end, ip-satisfied and Ctrl-C exits — in particular whenever no socket
error occurs during the wait — but NOT on the fatal-error path: the
`Exception` raised when the socket shows up in `select`'s exceptional set is
not caught (the body catches only `KeyboardInterrupt`) and it propagates
through the `@contextmanager` generator `_send_udp`, which has no
`try/finally`, so `sock.close()` is skipped: the fatal path propagates the
error but leaks the socket. -/
theorem discover_socket_closed_iff_not_fatal
    (resolve : List Char → List Char → List Char × Bool) (nameF ipF : List Char)
    (timeout : Nat) (events : List DiscEvent) (initDevices : List DDevice) :
    ((discover resolve nameF ipF timeout events initDevices).exit = ExitKind.sockError →
      (discover resolve nameF ipF timeout events initDevices).socketClosed = false
      ∧ (discover resolve nameF ipF timeout events initDevices).raised = true)
    ∧ ((discover resolve nameF ipF timeout events initDevices).exit ≠ ExitKind.sockError →
      (discover resolve nameF ipF timeout events initDevices).socketClosed = true
      ∧ (discover resolve nameF ipF timeout events initDevices).raised = false)
    ∧ ((∀ e ∈ events, isSelExc e = false) →
      (discover resolve nameF ipF timeout events initDevices).socketClosed = true) := by
  refine ⟨?_, ?_, ?_⟩
  · intro h
    simp only [discover] at h ⊢
    simp [h]
  · intro h
    simp only [discover] at h ⊢
    simp [h]
  · intro h
    have hne := discoverLoop_no_selExc resolve nameF ipF timeout events initDevices [] [] h
    simp only [discover]
    simp [hne]

/-- Counterexample for C3: a socket error during the wait aborts the loop and
the exception propagates to the discovery caller, but the socket is not
closed on this exit path — the claim that the socket is closed on every exit
path of the loop is false. -/
theorem discover_fatal_error_leaks_socket :
    (discover resolveEcho [] [] 5 [DiscEvent.selExc 0] []).exit = ExitKind.sockError
    ∧ (discover resolveEcho [] [] 5 [DiscEvent.selExc 0] []).raised = true
    ∧ (discover resolveEcho [] [] 5 [DiscEvent.selExc 0] []).socketClosed = false :=
  ⟨rfl, rfl, rfl⟩

/-- Witness for C3: on a trace ending in a socket error the socket leaks and
the error propagates; on an error-free trace the socket is closed. -/
theorem discover_socket_closed_iff_not_fatal_witness :
    ((discover resolveEcho [] [] 5 [DiscEvent.recv 0 ['T'] ['9'], DiscEvent.selExc 1] []).socketClosed = false
      ∧ (discover resolveEcho [] [] 5 [DiscEvent.recv 0 ['T'] ['9'], DiscEvent.selExc 1] []).raised = true)
    ∧ (discover resolveEcho [] [] 5 [DiscEvent.selNone 0, DiscEvent.ctrlC 1] []).socketClosed = true :=
  ⟨(discover_socket_closed_iff_not_fatal resolveEcho [] [] 5
      [DiscEvent.recv 0 ['T'] ['9'], DiscEvent.selExc 1] []).1 rfl,
   (discover_socket_closed_iff_not_fatal resolveEcho [] [] 5
      [DiscEvent.selNone 0, DiscEvent.ctrlC 1] []).2.2 (by decide)⟩

/-- C6: `DlnapDevice.__eq__` compares devices solely by the (friendly name,
ip) pair; the discovery result set never holds two devices with the same
identity, and with no name filter every identity resolved from a processed
datagram occurs exactly once — two datagrams resolving to the same name and
sender ip yield exactly one device. -/
theorem discover_dedup_exactly_one :
    (∀ a b : DDevice, deviceEq a b = true ↔ a.name = b.name ∧ a.ip = b.ip)
    ∧ (∀ (resolve : List Char → List Char → List Char × Bool) (nameF ipF : List Char)
        (timeout : Nat) (events : List DiscEvent),
        ((discover resolve nameF ipF timeout events []).devices).Pairwise
          (fun a b => deviceEq a b = false))
    ∧ (∀ (resolve : List Char → List Char → List Char × Bool) (ipF : List Char)
        (timeout : Nat) (events : List DiscEvent) (x : DDevice),
        x ∈ (discover resolve [] ipF timeout events []).resolved →
        ((discover resolve [] ipF timeout events []).devices).countP
          (fun e => deviceEq e x) = 1) := by
  refine ⟨deviceEq_iff, ?_, ?_⟩
  · intro resolve nameF ipF timeout events
    exact discoverLoop_pairwise resolve nameF ipF timeout events [] [] [] List.Pairwise.nil
  · intro resolve ipF timeout events x hx
    exact discoverLoop_resolved_count resolve ipF timeout events [] [] []
      List.Pairwise.nil (by simp) x hx

/-- Witness for C6: two datagrams resolving to the same name and sender ip
leave exactly one device with that identity in the result set. -/
theorem discover_dedup_exactly_one_witness :
    ((discover resolveEcho [] [] 5
        [DiscEvent.recv 0 ['T', 'V'] ['9'], DiscEvent.recv 1 ['T', 'V'] ['9']] []).devices).countP
      (fun e => deviceEq e ⟨['T', 'V'], ['9'], true⟩) = 1 :=
  discover_dedup_exactly_one.2.2 resolveEcho [] 5
    [DiscEvent.recv 0 ['T', 'V'] ['9'], DiscEvent.recv 1 ['T', 'V'] ['9']]
    ⟨['T', 'V'], ['9'], true⟩ (by decide)

/-- C7 (code bug): discovery reports devices incrementally — the printed
(index, device) reports enumerate the accumulated device list in order — but
`Cli.discover` has no return statement: for every input it returns `None`,
not the sequence of devices that both its own docstring
(`return -- list of DlnapDevice`) and the spec promise. -/
theorem discover_returns_none_reports_incrementally :
    (∀ (resolve : List Char → List Char → List Char × Bool) (nameF ipF : List Char)
      (timeout : Nat) (events : List DiscEvent) (initDevices : List DDevice),
      (discover resolve nameF ipF timeout events initDevices).retval = none)
    ∧ (∀ (resolve : List Char → List Char → List Char × Bool) (nameF ipF : List Char)
      (timeout : Nat) (events : List DiscEvent),
      (discover resolve nameF ipF timeout events []).printed
        = ((discover resolve nameF ipF timeout events []).devices).enum) := by
  refine ⟨fun _ _ _ _ _ _ => rfl, ?_⟩
  intro resolve nameF ipF timeout events
  exact discoverLoop_printed_enum resolve nameF ipF timeout events [] [] [] rfl

/-! Groundwork for the amended C1: the parser on well-behaved chain XML. -/

theorem isPrefixB_iff (p : List Char) : ∀ s, isPrefixB p s = true ↔ ∃ t, s = p ++ t := by
  induction p with
  | nil => intro s; simp [isPrefixB]
  | cons a p' ih =>
    intro s
    cases s with
    | nil => simp [isPrefixB]
    | cons b s' =>
      simp only [isPrefixB, Bool.and_eq_true, decide_eq_true_eq, ih s', List.cons_append,
        List.cons.injEq]
      constructor
      · rintro ⟨rfl, t, rfl⟩
        exact ⟨t, rfl, rfl⟩
      · rintro ⟨t, rfl, rfl⟩
        exact ⟨rfl, t, rfl⟩

theorem endsWithB_iff (p s : List Char) : endsWithB p s = true ↔ ∃ q, s = q ++ p := by
  rw [endsWithB, isPrefixB_iff]
  constructor
  · rintro ⟨t, ht⟩
    refine ⟨t.reverse, ?_⟩
    have h2 := congrArg List.reverse ht
    simpa using h2
  · rintro ⟨q, rfl⟩
    exact ⟨q.reverse, by simp⟩

theorem plainChar_spec {c : Char} (h : plainChar c = true) :
    c ≠ '<' ∧ c ≠ '>' ∧ c ≠ '/' ∧ c ≠ '@' ∧ c ≠ '=' ∧ c ≠ '?' ∧ pySpace c = false := by
  simp only [plainChar, decide_eq_true_eq, not_or] at h
  obtain ⟨h1, h2, h3, h4, h5, h6, h7⟩ := h
  exact ⟨h1, h2, h3, h4, h5, h6, by simpa using h7⟩

theorem plain_not_mem {s : List Char} (h : plainStr s) (c : Char)
    (hc : plainChar c = false) : c ∉ s := by
  intro hm
  rw [h c hm] at hc
  cases hc

theorem dropWhile_of_head_false {p : Char → Bool} :
    ∀ {s : List Char}, (∀ c ∈ s, p c = false) → s.dropWhile p = s
  | [], _ => rfl
  | a :: l, h => by simp [List.dropWhile_cons, h a (List.mem_cons_self a l)]

theorem pyStrip_no_space {s : List Char} (h : ∀ c ∈ s, pySpace c = false) :
    pyStrip s = s := by
  unfold pyStrip
  rw [dropWhile_of_head_false h,
    dropWhile_of_head_false (fun c hc => h c (List.mem_reverse.mp hc)), List.reverse_reverse]

theorem pyStrip_plain {s : List Char} (h : plainStr s) : pyStrip s = s :=
  pyStrip_no_space (fun c hc => (plainChar_spec (h c hc)).2.2.2.2.2.2)

theorem pyStrip_cons_concat {a b : Char} (m : List Char) (ha : pySpace a = false)
    (hb : pySpace b = false) : pyStrip (a :: (m ++ [b])) = a :: (m ++ [b]) := by
  have h1 : List.dropWhile pySpace (a :: (m ++ [b])) = a :: (m ++ [b]) := by
    simp [List.dropWhile_cons, ha]
  have h2 : (a :: (m ++ [b])).reverse = b :: (m.reverse ++ [a]) := by simp
  have h3 : List.dropWhile pySpace (b :: (m.reverse ++ [a])) = b :: (m.reverse ++ [a]) := by
    simp [List.dropWhile_cons, hb]
  unfold pyStrip
  rw [h1, h2, h3]
  simp

theorem pyStrip_wrapTag (t inner : List Char) :
    pyStrip (wrapTag t inner) = wrapTag t inner := by
  have h : wrapTag t inner = '<' :: ((t ++ '>' :: inner ++ '<' :: '/' :: t) ++ ['>']) := by
    simp [wrapTag]
  rw [h]
  exact pyStrip_cons_concat _ (by decide) (by decide)

theorem isPrefixB_append_same : ∀ (l a b : List Char), isPrefixB (l ++ a) (l ++ b) = isPrefixB a b
  | [], _, _ => rfl
  | c :: l', a, b => by simp [isPrefixB, isPrefixB_append_same l' a b]

theorem scanTag_plain : ∀ (t rest : List Char), (∀ c ∈ t, c ≠ '>' ∧ c ≠ ' ') →
    scanTag (t ++ '>' :: rest) false = (t, '>' :: rest)
  | [], rest, _ => by simp [scanTag]
  | a :: t', rest, h => by
    have ha := h a (List.mem_cons_self a t')
    have ih := scanTag_plain t' rest (fun c hc => h c (List.mem_cons_of_mem a hc))
    simp [scanTag, ha.1, ha.2, ih]

theorem endsWithB_append_self (p q : List Char) : endsWithB p (q ++ p) = true :=
  (endsWithB_iff p (q ++ p)).mpr ⟨q, rfl⟩

theorem scanValue_append_no_gt (t : List Char) :
    ∀ (s : List Char), (∀ c ∈ s, c ≠ '>') → ∀ (s' acc : List Char),
      scanValue ('<' :: '/' :: t ++ ['>']) (s ++ s') acc
        = scanValue ('<' :: '/' :: t ++ ['>']) s' (acc ++ s)
  | [], _, s', acc => by simp
  | c :: r, h, s', acc => by
    have hc : c ≠ '>' := h c (List.mem_cons_self c r)
    have ih := scanValue_append_no_gt t r (fun x hx => h x (List.mem_cons_of_mem c hx)) s'
      (acc ++ [c])
    calc scanValue ('<' :: '/' :: t ++ ['>']) ((c :: r) ++ s') acc
        = scanValue ('<' :: '/' :: t ++ ['>']) (r ++ s') (acc ++ [c]) := by
          simp [scanValue, hc]
      _ = scanValue ('<' :: '/' :: t ++ ['>']) s' ((acc ++ [c]) ++ r) := ih
      _ = scanValue ('<' :: '/' :: t ++ ['>']) s' (acc ++ c :: r) := by simp

theorem scanValue_gt_step_skip (ct rest acc : List Char)
    (h : endsWithB ct (acc ++ ['>']) = false) :
    scanValue ct ('>' :: rest) acc = scanValue ct rest (acc ++ ['>']) := by
  simp [scanValue, h]

theorem scanValue_gt_step_break (ct rest acc : List Char)
    (h : endsWithB ct (acc ++ ['>']) = true) :
    scanValue ct ('>' :: rest) acc = (pyDropLastN (ct.length - 1) (acc ++ ['>']), rest) := by
  simp [scanValue, h]

theorem ne_append_open : ∀ (a b p q : List Char),
    '/' ∉ a → '<' ∉ a → '/' ∉ b → '<' ∉ b →
    a ++ '/' :: '<' :: p ≠ b ++ '<' :: q
  | [], [], p, q, _, _, _, _ => by
    intro h
    injection h with h1 _
    exact absurd h1 (by decide)
  | [], y :: b', p, q, _, _, hb1, _ => by
    intro h
    injection h with h1 h2
    exact hb1 (by rw [← h1]; exact List.mem_cons_self _ _)
  | x :: a', [], p, q, _, ha2, _, _ => by
    intro h
    injection h with h1 h2
    exact ha2 (by rw [h1]; exact List.mem_cons_self _ _)
  | x :: a', y :: b', p, q, ha1, ha2, hb1, hb2 => by
    intro h
    injection h with h1 h2
    exact ne_append_open a' b' p q (fun hm => ha1 (List.mem_cons_of_mem _ hm))
      (fun hm => ha2 (List.mem_cons_of_mem _ hm)) (fun hm => hb1 (List.mem_cons_of_mem _ hm))
      (fun hm => hb2 (List.mem_cons_of_mem _ hm)) h2

theorem ne_append_close : ∀ (a b p q : List Char), a ≠ b →
    '/' ∉ a → '<' ∉ a → '/' ∉ b → '<' ∉ b →
    a ++ '/' :: '<' :: p ≠ b ++ '/' :: '<' :: q
  | [], [], p, q, hab, _, _, _, _ => absurd rfl hab
  | [], y :: b', p, q, _, _, _, hb1, _ => by
    intro h
    injection h with h1 h2
    exact hb1 (by rw [← h1]; exact List.mem_cons_self _ _)
  | x :: a', [], p, q, _, ha1, _, _, _ => by
    intro h
    injection h with h1 h2
    exact ha1 (by rw [h1]; exact List.mem_cons_self _ _)
  | x :: a', y :: b', p, q, hab, ha1, ha2, hb1, hb2 => by
    intro h
    injection h with h1 h2
    refine ne_append_close a' b' p q ?_ (fun hm => ha1 (List.mem_cons_of_mem _ hm))
      (fun hm => ha2 (List.mem_cons_of_mem _ hm)) (fun hm => hb1 (List.mem_cons_of_mem _ hm))
      (fun hm => hb2 (List.mem_cons_of_mem _ hm)) h2
    intro he
    exact hab (by rw [h1, he])

theorem endsWithB_false_open (t u acc0 : List Char)
    (ht1 : '/' ∉ t) (ht2 : '<' ∉ t) (hu1 : '/' ∉ u) (hu2 : '<' ∉ u) :
    endsWithB ('<' :: '/' :: t ++ ['>']) (acc0 ++ '<' :: u ++ ['>']) = false := by
  by_contra hcon
  rw [Bool.not_eq_false, endsWithB_iff] at hcon
  obtain ⟨q, hq⟩ := hcon
  have h2 := congrArg List.reverse hq
  simp only [List.reverse_append, List.reverse_cons, List.reverse_nil, List.nil_append,
    List.append_assoc, List.cons_append, List.singleton_append] at h2
  injection h2 with h3 h4
  exact ne_append_open t.reverse u.reverse q.reverse acc0.reverse
    (fun hm => ht1 (List.mem_reverse.mp hm)) (fun hm => ht2 (List.mem_reverse.mp hm))
    (fun hm => hu1 (List.mem_reverse.mp hm)) (fun hm => hu2 (List.mem_reverse.mp hm)) h4.symm

theorem endsWithB_false_close (t u acc0 : List Char) (hne : t ≠ u)
    (ht1 : '/' ∉ t) (ht2 : '<' ∉ t) (hu1 : '/' ∉ u) (hu2 : '<' ∉ u) :
    endsWithB ('<' :: '/' :: t ++ ['>']) (acc0 ++ '<' :: '/' :: u ++ ['>']) = false := by
  by_contra hcon
  rw [Bool.not_eq_false, endsWithB_iff] at hcon
  obtain ⟨q, hq⟩ := hcon
  have h2 := congrArg List.reverse hq
  simp only [List.reverse_append, List.reverse_cons, List.reverse_nil, List.nil_append,
    List.append_assoc, List.cons_append, List.singleton_append] at h2
  injection h2 with h3 h4
  refine ne_append_close t.reverse u.reverse q.reverse acc0.reverse ?_
    (fun hm => ht1 (List.mem_reverse.mp hm)) (fun hm => ht2 (List.mem_reverse.mp hm))
    (fun hm => hu1 (List.mem_reverse.mp hm)) (fun hm => hu2 (List.mem_reverse.mp hm)) h4.symm
  intro he
  have he2 := congrArg List.reverse he
  simp only [List.reverse_reverse] at he2
  exact hne he2

theorem scanValue_pass_render (t : List Char) (ht1 : '/' ∉ t) (ht2 : '<' ∉ t) :
    ∀ (tags : List (List Char)) (txt : List Char),
      (∀ u ∈ tags, u ≠ [] ∧ plainStr u) →
      t ∉ tags →
      (∀ c ∈ txt, c ≠ '<' ∧ c ≠ '>') →
      ∀ (s' acc : List Char),
        scanValue ('<' :: '/' :: t ++ ['>']) (renderChain tags txt ++ s') acc
          = scanValue ('<' :: '/' :: t ++ ['>']) s' (acc ++ renderChain tags txt)
  | [], txt, _, _, htxt, s', acc =>
    scanValue_append_no_gt t txt (fun c hc => (htxt c hc).2) s' acc
  | u :: rest, txt, htags, hnot, htxt, s', acc => by
    have hu := htags u (List.mem_cons_self u rest)
    have hu_gt : ∀ c ∈ u, c ≠ '>' := fun c hc => (plainChar_spec (hu.2 c hc)).2.1
    have hu_lt : '<' ∉ u := plain_not_mem hu.2 '<' (by decide)
    have hu_sl : '/' ∉ u := plain_not_mem hu.2 '/' (by decide)
    have tne : t ≠ u := fun he => hnot (by rw [he]; exact List.mem_cons_self u rest)
    have ih := scanValue_pass_render t ht1 ht2 rest txt
      (fun v hv => htags v (List.mem_cons_of_mem u hv))
      (fun hm => hnot (List.mem_cons_of_mem u hm)) htxt
    have hL : renderChain (u :: rest) txt ++ s'
        = ('<' :: u) ++ ('>' :: (renderChain rest txt
            ++ (('<' :: '/' :: u) ++ '>' :: s'))) := by
      simp [renderChain, wrapTag]
    have hopen : endsWithB ('<' :: '/' :: t ++ ['>']) ((acc ++ ('<' :: u)) ++ ['>']) = false := by
      have h0 := endsWithB_false_open t u acc ht1 ht2 hu_sl hu_lt
      have hsh : acc ++ '<' :: u ++ ['>'] = (acc ++ ('<' :: u)) ++ ['>'] := by simp
      rw [hsh] at h0
      exact h0
    have hclose : endsWithB ('<' :: '/' :: t ++ ['>'])
        (((((acc ++ ('<' :: u)) ++ ['>']) ++ renderChain rest txt) ++ ('<' :: '/' :: u)) ++ ['>'])
          = false := by
      have h0 := endsWithB_false_close t u (((acc ++ ('<' :: u)) ++ ['>']) ++ renderChain rest txt)
        tne ht1 ht2 hu_sl hu_lt
      have hsh : (((acc ++ ('<' :: u)) ++ ['>']) ++ renderChain rest txt) ++ '<' :: '/' :: u ++ ['>']
          = (((((acc ++ ('<' :: u)) ++ ['>']) ++ renderChain rest txt) ++ ('<' :: '/' :: u)) ++ ['>']) := by
        simp
      rw [hsh] at h0
      exact h0
    rw [hL]
    calc scanValue ('<' :: '/' :: t ++ ['>'])
          (('<' :: u) ++ ('>' :: (renderChain rest txt ++ (('<' :: '/' :: u) ++ '>' :: s')))) acc
        = scanValue ('<' :: '/' :: t ++ ['>'])
            ('>' :: (renderChain rest txt ++ (('<' :: '/' :: u) ++ '>' :: s')))
            (acc ++ ('<' :: u)) := by
          exact scanValue_append_no_gt t ('<' :: u)
            (by
              intro c hc
              rcases List.mem_cons.mp hc with hc1 | hc2
              · rw [hc1]; decide
              · exact hu_gt c hc2) _ acc
      _ = scanValue ('<' :: '/' :: t ++ ['>'])
            (renderChain rest txt ++ (('<' :: '/' :: u) ++ '>' :: s'))
            ((acc ++ ('<' :: u)) ++ ['>']) := scanValue_gt_step_skip _ _ _ hopen
      _ = scanValue ('<' :: '/' :: t ++ ['>']) (('<' :: '/' :: u) ++ '>' :: s')
            (((acc ++ ('<' :: u)) ++ ['>']) ++ renderChain rest txt) := ih _ _
      _ = scanValue ('<' :: '/' :: t ++ ['>']) ('>' :: s')
            ((((acc ++ ('<' :: u)) ++ ['>']) ++ renderChain rest txt) ++ ('<' :: '/' :: u)) := by
          exact scanValue_append_no_gt t ('<' :: '/' :: u)
            (by
              intro c hc
              rcases List.mem_cons.mp hc with hc1 | hc2
              · rw [hc1]; decide
              · rcases List.mem_cons.mp hc2 with hc3 | hc4
                · rw [hc3]; decide
                · exact hu_gt c hc4) _ _
      _ = scanValue ('<' :: '/' :: t ++ ['>']) s'
            ((((((acc ++ ('<' :: u)) ++ ['>']) ++ renderChain rest txt) ++ ('<' :: '/' :: u)) ++ ['>'])) :=
          scanValue_gt_step_skip _ _ _ hclose
      _ = scanValue ('<' :: '/' :: t ++ ['>']) s' (acc ++ renderChain (u :: rest) txt) := by
          have hsh : (((((acc ++ ('<' :: u)) ++ ['>']) ++ renderChain rest txt) ++ ('<' :: '/' :: u)) ++ ['>'])
              = acc ++ renderChain (u :: rest) txt := by
            simp [renderChain, wrapTag]
          rw [hsh]

theorem getTagValue_eq_of (x : List Char)
    (hstrip : pyStrip x = x)
    (hp1 : isPrefixB ['<', '?'] x = false)
    (hp2 : isPrefixB ['<', '/'] x = false)
    (hp3 : isPrefixB ['<'] x = true)
    (tag rem : List Char) (hscan : scanTag (x.drop 1) false = (tag, rem))
    (hpe : isPrefixB ('<' :: tag ++ [' ', '/', '>']) x = false)
    (v rest : List Char)
    (hsv : scanValue ('<' :: '/' :: tag ++ ['>']) (x.drop (2 + (x.length - 1 - rem.length))) []
      = (v, rest)) :
    getTagValue x = (pyStrip tag, pyDropLastN 1 v, rest) := by
  simp only [getTagValue, hstrip, hp1, hp2, hp3, Bool.false_eq_true, if_false, List.drop_zero,
    Bool.not_eq_true, if_true, Nat.zero_add, hscan, hpe, hsv, not_true]

theorem isPrefixB_lt_pair_false (d : Char) (t rest : List Char) (ht0 : t ≠ [])
    (hne : ∀ c ∈ t, c ≠ d) : isPrefixB ['<', d] ('<' :: (t ++ rest)) = false := by
  obtain ⟨c, t', rfl⟩ := List.exists_cons_of_ne_nil ht0
  have hc : ¬ (d = c) := fun he => hne c (List.mem_cons_self c t') he.symm
  simp [isPrefixB, List.cons_append, hc]

theorem getTagValue_no_lt (s : List Char) (h : ∀ c ∈ s, c ≠ '<') (hstrip : pyStrip s = s) :
    getTagValue s = ([], s, []) := by
  cases s with
  | nil => rfl
  | cons c s' =>
    have hc : ¬ ('<' = c) := fun he => h c (List.mem_cons_self c s') he.symm
    have hp : ∀ (p : List Char), isPrefixB ('<' :: p) (c :: s') = false := by
      intro p
      simp [isPrefixB, hc]
    simp [getTagValue, hstrip, hp]

theorem getTagValue_renderChain (t : List Char) (tags : List (List Char)) (txt : List Char)
    (ht0 : t ≠ []) (ht : plainStr t)
    (htags : ∀ u ∈ tags, u ≠ [] ∧ plainStr u)
    (hnot : t ∉ tags)
    (htxt : ∀ c ∈ txt, c ≠ '<' ∧ c ≠ '>') :
    getTagValue (renderChain (t :: tags) txt) = (t, renderChain tags txt, []) := by
  have ht_sl : '/' ∉ t := plain_not_mem ht '/' (by decide)
  have ht_lt : '<' ∉ t := plain_not_mem ht '<' (by decide)
  have ht_gt : ∀ c ∈ t, c ≠ '>' ∧ c ≠ ' ' := by
    intro c hc
    have hs := plainChar_spec (ht c hc)
    refine ⟨hs.2.1, ?_⟩
    intro he
    have := hs.2.2.2.2.2.2
    rw [he] at this
    simp [pySpace] at this
  have hW : renderChain (t :: tags) txt = wrapTag t (renderChain tags txt) := rfl
  have hshape : wrapTag t (renderChain tags txt) = '<' :: (t ++ '>' :: (renderChain tags txt ++ (('<' :: '/' :: t) ++ ['>']))) := by
    simp [wrapTag]
  rw [hW, hshape]
  have hstrip : pyStrip ('<' :: (t ++ '>' :: (renderChain tags txt ++ (('<' :: '/' :: t) ++ ['>'])))) = '<' :: (t ++ '>' :: (renderChain tags txt ++ (('<' :: '/' :: t) ++ ['>']))) := by
    rw [← hshape]
    exact pyStrip_wrapTag t (renderChain tags txt)
  have hp1 : isPrefixB ['<', '?'] ('<' :: (t ++ '>' :: (renderChain tags txt ++ (('<' :: '/' :: t) ++ ['>'])))) = false :=
    isPrefixB_lt_pair_false '?' t _ ht0 (fun c hc => (plainChar_spec (ht c hc)).2.2.2.2.2.1)
  have hp2 : isPrefixB ['<', '/'] ('<' :: (t ++ '>' :: (renderChain tags txt ++ (('<' :: '/' :: t) ++ ['>'])))) = false :=
    isPrefixB_lt_pair_false '/' t _ ht0 (fun c hc => (plainChar_spec (ht c hc)).2.2.1)
  have hp3 : isPrefixB ['<'] ('<' :: (t ++ '>' :: (renderChain tags txt ++ (('<' :: '/' :: t) ++ ['>'])))) = true := by simp [isPrefixB]
  have hscan : scanTag (('<' :: (t ++ '>' :: (renderChain tags txt ++ (('<' :: '/' :: t) ++ ['>'])))).drop 1) false = (t, '>' :: (renderChain tags txt ++ (('<' :: '/' :: t) ++ ['>']))) :=
    scanTag_plain t (renderChain tags txt ++ (('<' :: '/' :: t) ++ ['>'])) ht_gt
  have hpe : isPrefixB ('<' :: t ++ [' ', '/', '>']) ('<' :: (t ++ '>' :: (renderChain tags txt ++ (('<' :: '/' :: t) ++ ['>'])))) = false := by
    have hsh1 : ('<' :: (t ++ '>' :: (renderChain tags txt ++ (('<' :: '/' :: t) ++ ['>']))) : List Char) = ('<' :: t) ++ ('>' :: (renderChain tags txt ++ (('<' :: '/' :: t) ++ ['>']))) := by simp
    have hsh2 : '<' :: t ++ [' ', '/', '>'] = ('<' :: t) ++ [' ', '/', '>'] := rfl
    rw [hsh1, hsh2, isPrefixB_append_same]
    have hne : ¬ ((' ' : Char) = '>') := by decide
    simp [isPrefixB, hne]
  have hidx : 2 + (('<' :: (t ++ '>' :: (renderChain tags txt ++ (('<' :: '/' :: t) ++ ['>']))) : List Char).length - 1 - ('>' :: (renderChain tags txt ++ (('<' :: '/' :: t) ++ ['>']))).length)
      = (('<' :: t) ++ ['>']).length := by
    simp
    omega
  have hdrop : ('<' :: (t ++ '>' :: (renderChain tags txt ++ (('<' :: '/' :: t) ++ ['>']))) : List Char).drop ((('<' :: t) ++ ['>']).length) = (renderChain tags txt ++ (('<' :: '/' :: t) ++ ['>'])) := by
    have hsh3 : ('<' :: (t ++ '>' :: (renderChain tags txt ++ (('<' :: '/' :: t) ++ ['>']))) : List Char) = (('<' :: t) ++ ['>']) ++ (renderChain tags txt ++ (('<' :: '/' :: t) ++ ['>'])) := by simp
    rw [hsh3, List.drop_left]
  have hpass := scanValue_pass_render t ht_sl ht_lt tags txt htags hnot htxt
    (('<' :: '/' :: t) ++ ['>']) []
  have hnog := scanValue_append_no_gt t ('<' :: '/' :: t)
    (by
      intro c hc
      rcases List.mem_cons.mp hc with hc1 | hc2
      · rw [hc1]; decide
      · rcases List.mem_cons.mp hc2 with hc3 | hc4
        · rw [hc3]; decide
        · exact (ht_gt c hc4).1)
    ['>'] (renderChain tags txt)
  have hbreak : scanValue ('<' :: '/' :: t ++ ['>']) ['>'] (renderChain tags txt ++ ('<' :: '/' :: t))
      = (pyDropLastN (('<' :: '/' :: t ++ ['>']).length - 1) ((renderChain tags txt ++ ('<' :: '/' :: t)) ++ ['>']), []) := by
    apply scanValue_gt_step_break
    have hsh4 : (renderChain tags txt ++ ('<' :: '/' :: t)) ++ ['>'] = renderChain tags txt ++ ('<' :: '/' :: t ++ ['>']) := by
      simp
    rw [hsh4]
    exact endsWithB_append_self _ _
  have hval : pyDropLastN (('<' :: '/' :: t ++ ['>']).length - 1) ((renderChain tags txt ++ ('<' :: '/' :: t)) ++ ['>'])
      = renderChain tags txt ++ ['<'] := by
    unfold pyDropLastN
    have hsh5 : (renderChain tags txt ++ ('<' :: '/' :: t)) ++ ['>'] = renderChain tags txt ++ (('<' :: '/' :: t) ++ ['>']) := by
      simp
    rw [hsh5]
    have hn : (renderChain tags txt ++ (('<' :: '/' :: t) ++ ['>'])).length - (('<' :: '/' :: t ++ ['>']).length - 1)
        = (renderChain tags txt : List Char).length + 1 := by
      simp
      omega
    rw [hn, List.take_append]
    rfl
  have hsv : scanValue ('<' :: '/' :: t ++ ['>'])
      (('<' :: (t ++ '>' :: (renderChain tags txt ++ (('<' :: '/' :: t) ++ ['>']))) : List Char).drop (2 + (('<' :: (t ++ '>' :: (renderChain tags txt ++ (('<' :: '/' :: t) ++ ['>']))) : List Char).length - 1 - ('>' :: (renderChain tags txt ++ (('<' :: '/' :: t) ++ ['>']))).length))) []
      = (renderChain tags txt ++ ['<'], []) := by
    rw [hidx, hdrop]
    calc scanValue ('<' :: '/' :: t ++ ['>']) ((renderChain tags txt ++ (('<' :: '/' :: t) ++ ['>']))) []
        = scanValue ('<' :: '/' :: t ++ ['>']) (('<' :: '/' :: t) ++ ['>']) ([] ++ renderChain tags txt) := hpass
      _ = scanValue ('<' :: '/' :: t ++ ['>']) (('<' :: '/' :: t) ++ ['>']) (renderChain tags txt) := by
          rw [List.nil_append]
      _ = scanValue ('<' :: '/' :: t ++ ['>']) ['>'] (renderChain tags txt ++ ('<' :: '/' :: t)) := hnog
      _ = (renderChain tags txt ++ ['<'], []) := by rw [hbreak, hval]
  have hfin := getTagValue_eq_of ('<' :: (t ++ '>' :: (renderChain tags txt ++ (('<' :: '/' :: t) ++ ['>'])))) hstrip hp1 hp2 hp3 t ('>' :: (renderChain tags txt ++ (('<' :: '/' :: t) ++ ['>']))) hscan hpe
    (renderChain tags txt ++ ['<']) [] hsv
  rw [hfin, pyStrip_plain ht]
  have hlast : pyDropLastN 1 (renderChain tags txt ++ ['<']) = renderChain tags txt := by
    unfold pyDropLastN
    have hn2 : (renderChain tags txt ++ ['<']).length - 1 = (renderChain tags txt : List Char).length := by simp
    rw [hn2, List.take_left]
  rw [hlast]

theorem xml2dictGo_nil (fuel : Nat) (d : XDict) : xml2dictGo fuel [] d = d := by
  cases fuel <;> rfl

theorem xml2dictGo_step (f : Nat) (c : Char) (s0 : List Char) (d : XDict)
    (tag value0 rest : List Char) (h : getTagValue (c :: s0) = (tag, value0, rest)) :
    xml2dictGo (f + 1) (c :: s0) d =
      (if (getTagValue (pyStrip value0)).1 = [] then
        (if pyStrip value0 = [] then xml2dictGo f rest (dictEnsure d tag)
         else xml2dictGo f rest
           (dictAppend (dictEnsure d tag) tag (XVal.leaf (pyStrip (pyStrip value0)))))
       else xml2dictGo f rest
         (dictAppend (dictEnsure d tag) tag (XVal.node (xml2dictGo f (pyStrip value0) [])))) := by
  simp only [xml2dictGo, h]

theorem xml2dict_renderChain : ∀ (tags : List (List Char)) (txt : List Char) (fuel : Nat),
    tags ≠ [] → tags.length < fuel →
    (∀ u ∈ tags, u ≠ [] ∧ plainStr u) →
    tags.Pairwise (fun a b => a ≠ b) →
    txt ≠ [] → (∀ c ∈ txt, c ≠ '<' ∧ c ≠ '>') → pyStrip txt = txt →
    xml2dictGo fuel (renderChain tags txt) [] = chainDict tags txt := by
  intro tags
  induction tags with
  | nil => intro txt fuel h0; exact absurd rfl h0
  | cons t rest ih =>
    intro txt fuel _ hfuel htags hpw htxt0 htxt hstrip
    obtain ⟨f, rfl⟩ : ∃ f, fuel = f + 1 := ⟨fuel - 1, by omega⟩
    have ht := htags t (List.mem_cons_self t rest)
    have hnot : t ∉ rest := by
      rw [List.pairwise_cons] at hpw
      intro hm
      exact hpw.1 t hm rfl
    have hgtv := getTagValue_renderChain t rest txt ht.1 ht.2
      (fun u hu => htags u (List.mem_cons_of_mem t hu)) hnot htxt
    have hW : renderChain (t :: rest) txt
        = '<' :: (t ++ '>' :: (renderChain rest txt ++ ('<' :: '/' :: t ++ ['>']))) := by
      simp [renderChain, wrapTag]
    rw [hW] at hgtv
    rw [hW, xml2dictGo_step f _ _ [] t (renderChain rest txt) [] hgtv]
    cases rest with
    | nil =>
      have hre : renderChain [] txt = txt := rfl
      rw [hre, hstrip]
      have hgl : getTagValue txt = ([], txt, []) :=
        getTagValue_no_lt txt (fun c hc => (htxt c hc).1) hstrip
      rw [hgl]
      simp only [if_pos rfl, if_neg htxt0, xml2dictGo_nil, hstrip]
      simp [dictEnsure, dictAppend, pyFind, chainDict, if_neg htxt0]
    | cons u rest' =>
      have hstr2 : pyStrip (renderChain (u :: rest') txt) = renderChain (u :: rest') txt :=
        pyStrip_wrapTag u (renderChain rest' txt)
      rw [hstr2]
      have hu := htags u (List.mem_cons_of_mem t (List.mem_cons_self u rest'))
      have hnotu : u ∉ rest' := by
        rw [List.pairwise_cons, List.pairwise_cons] at hpw
        intro hm
        exact hpw.2.1 u hm rfl
      have hgu := getTagValue_renderChain u rest' txt hu.1 hu.2
        (fun v hv => htags v (List.mem_cons_of_mem t (List.mem_cons_of_mem u hv))) hnotu htxt
      rw [hgu]
      have hune : ¬ (u = ([] : List Char)) := hu.1
      rw [if_neg hune]
      have hrec : xml2dictGo f (renderChain (u :: rest') txt) [] = chainDict (u :: rest') txt := by
        refine ih txt f (by simp) ?_ (fun v hv => htags v (List.mem_cons_of_mem t hv)) ?_
          htxt0 htxt hstrip
        · have := hfuel
          simp only [List.length_cons] at this ⊢
          omega
        · rw [List.pairwise_cons] at hpw
          exact hpw.2
      rw [hrec, xml2dictGo_nil]
      simp [dictEnsure, dictAppend, pyFind, chainDict]

theorem xpathSegs_chainDict : ∀ (tags : List (List Char)) (txt : List Char),
    tags ≠ [] → (∀ u ∈ tags, u ≠ [] ∧ plainStr u) →
    xpathSegs (.node (chainDict tags txt)) tags = .ok (some (.leaf txt)) := by
  intro tags
  induction tags with
  | nil => intro txt h0; exact absurd rfl h0
  | cons t rest ih =>
    intro txt _ htags
    have ht := htags t (List.mem_cons_self t rest)
    have hsplit : pySplit '@' t = [t] :=
      pySplit_not_mem '@' t (plain_not_mem ht.2 '@' (by decide))
    cases rest with
    | nil =>
      simp only [chainDict, xpathSegs, hsplit, List.headD, List.drop]
      simp [pyFind, xpathSegs]
    | cons u rest' =>
      simp only [chainDict, xpathSegs, hsplit, List.headD, List.drop]
      rw [show pyFind [(t, [XVal.node (chainDict (u :: rest') txt)])] t
          = some [XVal.node (chainDict (u :: rest') txt)] from by simp [pyFind]]
      simp only [if_pos rfl]
      exact ih txt (by simp) (fun v hv => htags v (List.mem_cons_of_mem t hv))

theorem pathOfTags_cons_cons (t u : List Char) (rest : List (List Char)) :
    pathOfTags (t :: u :: rest) = t ++ '/' :: pathOfTags (u :: rest) := by
  simp [pathOfTags, List.intersperse_cons_cons]

theorem pySplit_pathOfTags : ∀ (tags : List (List Char)), tags ≠ [] →
    (∀ u ∈ tags, '/' ∉ u) →
    pySplit '/' (pathOfTags tags) = tags := by
  intro tags
  induction tags with
  | nil => intro h; exact absurd rfl h
  | cons t rest ih =>
    intro _ h
    cases rest with
    | nil =>
      have h1 : pathOfTags [t] = t := by simp [pathOfTags]
      rw [h1]
      exact pySplit_not_mem '/' t (h t (List.mem_cons_self t []))
    | cons u rest' =>
      rw [pathOfTags_cons_cons,
        pySplit_append_cons '/' t _ (h t (List.mem_cons_self t _)),
        ih (by simp) (fun v hv => h v (List.mem_cons_of_mem t hv))]

/-- C1 (amended): for well-formed XML made of properly nested single-child
elements whose tag names are non-empty, free of markup/path metacharacters
and whitespace, and pairwise distinct along the chain, and whose leaf text is
non-empty, markup-free and already stripped, evaluating the slash-delimited
path of tag names on the parsed tree returns the leaf text.  (As stated over
all well-formed XML the claim is false — see the counterexample with nested
same-named tags, on which evaluation raises `IndexError`; leading or trailing
whitespace of a leaf is also stripped by the parser.) -/
theorem xpath_xml2dict_chain_leaf
    (tags : List (List Char)) (txt : List Char) (fuel : Nat)
    (h0 : tags ≠ []) (h1 : ∀ u ∈ tags, u ≠ [] ∧ plainStr u)
    (h2 : tags.Pairwise (fun a b => a ≠ b))
    (h3 : txt ≠ []) (h4 : ∀ c ∈ txt, c ≠ '<' ∧ c ≠ '>') (h5 : pyStrip txt = txt)
    (h6 : tags.length < fuel) :
    xpath (xml2dict fuel false (renderChain tags txt)) (pathOfTags tags)
      = .ok (some (XVal.leaf txt)) := by
  unfold xpath xml2dict
  rw [pySplit_pathOfTags tags h0 (fun u hu => plain_not_mem (h1 u hu).2 '/' (by decide))]
  have hif : (if (false : Bool) then ignoreUntilXmlStr (renderChain tags txt)
      else renderChain tags txt) = renderChain tags txt := rfl
  rw [hif, xml2dict_renderChain tags txt fuel h0 h6 h1 h2 h3 h4 h5]
  exact xpathSegs_chainDict tags txt h0 h1

/-- Counterexample for C1: `<a><a>v</a></a>` is well-formed XML whose only
leaf `v` sits at path `a/a`, but the first matching closing tag terminates
extraction, the inner element parses to an empty child list, and evaluating
`a/a` raises `IndexError` instead of returning `v`. -/
theorem xpath_nested_same_tag_counterexample :
    xpath (xml2dict 10 false "<a><a>v</a></a>".toList) "a/a".toList = .error PyErr.indexError
    ∧ xpath (xml2dict 10 false "<a><a>v</a></a>".toList) "a/a".toList
        ≠ .ok (some (XVal.leaf ['v'])) := by
  refine ⟨rfl, ?_⟩
  intro h
  have h1 : xpath (xml2dict 10 false "<a><a>v</a></a>".toList) "a/a".toList
      = .error PyErr.indexError := rfl
  rw [h1] at h
  exact Except.noConfusion h

/-- Witness for C1 (amended): the two-level chain `<a><b>hi</b></a>` parses
and the path `a/b` returns the leaf `hi`. -/
theorem xpath_xml2dict_chain_leaf_witness :
    xpath (xml2dict 9 false (renderChain [['a'], ['b']] ('h' :: 'i' :: [])))
        (pathOfTags [['a'], ['b']])
      = .ok (some (XVal.leaf ('h' :: 'i' :: []))) :=
  xpath_xml2dict_chain_leaf [['a'], ['b']] ('h' :: 'i' :: []) 9 (by decide)
    (by
      intro u hu
      rcases List.mem_cons.mp hu with rfl | hu2
      · exact ⟨by decide, by intro c hc; rw [List.mem_singleton.mp hc]; decide⟩
      · rw [List.mem_singleton.mp hu2]
        exact ⟨by decide, by intro c hc; rw [List.mem_singleton.mp hc]; decide⟩)
    (by decide)
    (by decide)
    (by
      intro c hc
      rcases List.mem_cons.mp hc with rfl | hc2
      · exact ⟨by decide, by decide⟩
      · rw [List.mem_singleton.mp hc2]
        exact ⟨by decide, by decide⟩)
    (by decide) (by decide)

end Dlnap
